import Mathlib

/-!
Verification of the spatial-index core of a 3D point-cloud viewer:
an octree over a static point set (build, frustum / radius / box / LOD
queries) and a growable fixed-block memory pool with a free list.

Geometry is modelled over `ℚ` (the C++ code uses `float`; the rational
model is the exact idealisation of the same arithmetic).  Machine sizes
(`size_t`, `int`) are modelled as `Nat`.
-/

namespace PCV

/-- `glm::vec3`, over `ℚ`. -/
structure Vec3 where
  x : ℚ
  y : ℚ
  z : ℚ
deriving DecidableEq

/-- Componentwise addition. -/
def vadd (a b : Vec3) : Vec3 := ⟨a.x + b.x, a.y + b.y, a.z + b.z⟩

/-- Componentwise subtraction. -/
def vsub (a b : Vec3) : Vec3 := ⟨a.x - b.x, a.y - b.y, a.z - b.z⟩

/-- Scalar multiple. -/
def vscale (q : ℚ) (a : Vec3) : Vec3 := ⟨q * a.x, q * a.y, q * a.z⟩

/-- `glm::dot`. -/
def vdot (a b : Vec3) : ℚ := a.x * b.x + a.y * b.y + a.z * b.z

/-- Componentwise `glm::min`. -/
def vmin (a b : Vec3) : Vec3 := ⟨min a.x b.x, min a.y b.y, min a.z b.z⟩

/-- Componentwise `glm::max`. -/
def vmax (a b : Vec3) : Vec3 := ⟨max a.x b.x, max a.y b.y, max a.z b.z⟩

/-- `glm::clamp(v, lo, hi)` = componentwise `min(max(v, lo), hi)`. -/
def vclamp (v lo hi : Vec3) : Vec3 := vmin (vmax v lo) hi

/-- Componentwise `≤` on vectors. -/
def vle (a b : Vec3) : Prop := a.x ≤ b.x ∧ a.y ≤ b.y ∧ a.z ≤ b.z

instance (a b : Vec3) : Decidable (vle a b) := by unfold vle; infer_instance

/-- One integer Newton step for the square root of `n`. -/
def sqrtStep (n g : Nat) : Nat := if g = 0 then 0 else (g + n / g) / 2

/-- Integer square root by 256 Newton iterations (enough to converge from
the initial guess for any `n < 2^256`, far beyond every value in this
development; on a perfect square `k*k` the iteration reaches the exact
root `k` and stays there). -/
def natSqrt (n : Nat) : Nat := if n ≤ 1 then n else (sqrtStep n)^[256] (n / 2)

/-- Square root on `ℚ`, exact on perfect-square rationals; models the
IEEE `sqrt` used by `glm::length` (all concrete inputs below are
perfect squares, where this agrees with the real square root). -/
def ratSqrt (q : ℚ) : ℚ := (natSqrt q.num.toNat : ℚ) / (natSqrt q.den : ℚ)

/-- `glm::length`. -/
def vlength (a : Vec3) : ℚ := ratSqrt (vdot a a)

/-- Squared distance between two vectors. -/
def distSq (a b : Vec3) : ℚ := vdot (vsub a b) (vsub a b)

/-- `pcv::Point`: position, color, normal, intensity. -/
structure Point where
  position : Vec3
  color : Vec3
  normal : Vec3
  intensity : ℚ
deriving DecidableEq

/-- The `Point()` default constructor. -/
instance : Inhabited Point := ⟨⟨⟨0, 0, 0⟩, ⟨1, 1, 1⟩, ⟨0, 0, 1⟩, 1⟩⟩

/-- The `Point(pos)` constructor. -/
def mkPoint (pos : Vec3) : Point := ⟨pos, ⟨1, 1, 1⟩, ⟨0, 0, 1⟩, 1⟩

/-- `cloud[idx].position` (unchecked access; always in bounds at use sites). -/
def cloudPos (cloud : List Point) (idx : Nat) : Vec3 :=
  (cloud.getD idx default).position

/-- `PointCloud::getMinBound()` for a non-empty cloud: the running
componentwise minimum maintained by `updateBounds` over appends
(seeded at `FLT_MAX`, hence equal to the fold from the first point). -/
def cloudMinBound (cloud : List Point) : Vec3 :=
  match cloud with
  | [] => ⟨0, 0, 0⟩
  | p :: ps => ps.foldl (fun a q => vmin a q.position) p.position

/-- `PointCloud::getMaxBound()` for a non-empty cloud (see `cloudMinBound`). -/
def cloudMaxBound (cloud : List Point) : Vec3 :=
  match cloud with
  | [] => ⟨0, 0, 0⟩
  | p :: ps => ps.foldl (fun a q => vmax a q.position) p.position

/-- `pcv::OctreeNode`: box `[minB, maxB]`, depth, the eight child slots of
`std::array<Ptr, 8>` (a null pointer is `none`), and the leaf index list. -/
inductive ONode : Type where
  | mk (minB maxB : Vec3) (depth : Nat)
       (c0 c1 c2 c3 c4 c5 c6 c7 : Option ONode)
       (pts : List Nat) : ONode

/-- Node box minimum. -/
def ONode.minBound : ONode → Vec3
  | .mk a _ _ _ _ _ _ _ _ _ _ _ => a

/-- Node box maximum. -/
def ONode.maxBound : ONode → Vec3
  | .mk _ b _ _ _ _ _ _ _ _ _ _ => b

/-- `getDepth()`. -/
def ONode.depth : ONode → Nat
  | .mk _ _ d _ _ _ _ _ _ _ _ _ => d

/-- `getPointIndices()`. -/
def ONode.pointIndices : ONode → List Nat
  | .mk _ _ _ _ _ _ _ _ _ _ _ ps => ps

/-- `getChild(i)` (indices 0–7 of the child array). -/
def ONode.getChild : ONode → Nat → Option ONode
  | .mk _ _ _ c0 _ _ _ _ _ _ _ _, 0 => c0
  | .mk _ _ _ _ c1 _ _ _ _ _ _ _, 1 => c1
  | .mk _ _ _ _ _ c2 _ _ _ _ _ _, 2 => c2
  | .mk _ _ _ _ _ _ c3 _ _ _ _ _, 3 => c3
  | .mk _ _ _ _ _ _ _ c4 _ _ _ _, 4 => c4
  | .mk _ _ _ _ _ _ _ _ c5 _ _ _, 5 => c5
  | .mk _ _ _ _ _ _ _ _ _ c6 _ _, 6 => c6
  | .mk _ _ _ _ _ _ _ _ _ _ c7 _, 7 => c7
  | _, _ => none

/-- Replace the child at slot `i`. -/
def ONode.setChild : ONode → Nat → Option ONode → ONode
  | .mk a b d _ c1 c2 c3 c4 c5 c6 c7 ps, 0, c => .mk a b d c c1 c2 c3 c4 c5 c6 c7 ps
  | .mk a b d c0 _ c2 c3 c4 c5 c6 c7 ps, 1, c => .mk a b d c0 c c2 c3 c4 c5 c6 c7 ps
  | .mk a b d c0 c1 _ c3 c4 c5 c6 c7 ps, 2, c => .mk a b d c0 c1 c c3 c4 c5 c6 c7 ps
  | .mk a b d c0 c1 c2 _ c4 c5 c6 c7 ps, 3, c => .mk a b d c0 c1 c2 c c4 c5 c6 c7 ps
  | .mk a b d c0 c1 c2 c3 _ c5 c6 c7 ps, 4, c => .mk a b d c0 c1 c2 c3 c c5 c6 c7 ps
  | .mk a b d c0 c1 c2 c3 c4 _ c6 c7 ps, 5, c => .mk a b d c0 c1 c2 c3 c4 c c6 c7 ps
  | .mk a b d c0 c1 c2 c3 c4 c5 _ c7 ps, 6, c => .mk a b d c0 c1 c2 c3 c4 c5 c c7 ps
  | .mk a b d c0 c1 c2 c3 c4 c5 c6 _ ps, 7, c => .mk a b d c0 c1 c2 c3 c4 c5 c6 c ps
  | n, _, _ => n

/-- Replace the leaf index list. -/
def ONode.withIndices : ONode → List Nat → ONode
  | .mk a b d c0 c1 c2 c3 c4 c5 c6 c7 _, ps => .mk a b d c0 c1 c2 c3 c4 c5 c6 c7 ps

/-- `isLeaf()`: `children_[0] == nullptr`. -/
def ONode.isLeaf (n : ONode) : Bool := (n.getChild 0).isNone

/-- `getCenter()`: `(min + max) * 0.5`. -/
def ONode.center (n : ONode) : Vec3 := vscale (1/2) (vadd n.minBound n.maxBound)

/-- The octant code of `p` against a center: bit 0 = `p.x > c.x`,
bit 1 = `p.y > c.y`, bit 2 = `p.z > c.z`. -/
def octantIndex (c p : Vec3) : Nat :=
  (if p.x > c.x then 1 else 0) + (if p.y > c.y then 2 else 0) +
    (if p.z > c.z then 4 else 0)

/-- `getOctant(point)`. -/
def ONode.getOctant (n : ONode) (p : Vec3) : Nat := octantIndex n.center p

/-- Minimum corner of octant `i` of box `[mn, mx]` with center `c`
(`if i & 1 then child_min.x = center.x`, etc.). -/
def childMinB (mn _mx c : Vec3) (i : Nat) : Vec3 :=
  ⟨if i &&& 1 ≠ 0 then c.x else mn.x,
   if i &&& 2 ≠ 0 then c.y else mn.y,
   if i &&& 4 ≠ 0 then c.z else mn.z⟩

/-- Maximum corner of octant `i` of box `[mn, mx]` with center `c`
(`if i & 1 then ... else child_max.x = center.x`, etc.). -/
def childMaxB (_mn mx c : Vec3) (i : Nat) : Vec3 :=
  ⟨if i &&& 1 ≠ 0 then mx.x else c.x,
   if i &&& 2 ≠ 0 then mx.y else c.y,
   if i &&& 4 ≠ 0 then mx.z else c.z⟩

/-- The `OctreeNode(min, max, depth)` constructor: all children null. -/
def ONode.new (mn mx : Vec3) (d : Nat) : ONode :=
  .mk mn mx d none none none none none none none none []

/-- Maximum leaf occupancy before subdivision (`MAX_POINTS_PER_LEAF`). -/
def MAX_POINTS_PER_LEAF : Nat := 100

/-- Maximum tree depth (`MAX_DEPTH`). -/
def MAX_DEPTH : Nat := 10

/-- How small a node must look (diagonal / distance) before the LOD query
treats it as "far". -/
def DETAIL_CUTOFF : ℚ := 1/100

/-- Depth at which the LOD query always stops recursing. -/
def LOD_DEPTH_CUTOFF : Nat := 5

/-- `OctreeNode::insertPoint(point_index, position, cloud)`.

Structural recursion on an explicit `fuel` argument (the C++ recursion is
instead bounded by the `depth_ < MAX_DEPTH` guard); `subdivide` is inlined
at its unique call site so that the recursion is structural in `fuel`
alone — `insertPoint_subdivide_eq` below restates the inlined branch as a
call to the separately-defined `subdivide`, and `insertPoint_wf` shows
that with `fuel ≥ MAX_DEPTH + 1 - depth` the fuel never runs out on a
well-formed tree (the fuel-exhausted fallback would drop the index, and
`insertPoint_wf` proves the index multiset always grows by exactly the
inserted index), so the fuel is only a well-foundedness device. -/
def insertPoint (cloud : List Point) : Nat → ONode → Nat → Vec3 → ONode
  | 0, n, _, _ => n
  | fuel + 1, n, idx, pos =>
    if n.isLeaf then
      let n' := n.withIndices (n.pointIndices ++ [idx])
      if n'.pointIndices.length > MAX_POINTS_PER_LEAF ∧ n.depth < MAX_DEPTH then
        let c := n'.center
        let base : ONode :=
          .mk n'.minBound n'.maxBound n'.depth
            (some (ONode.new (childMinB n'.minBound n'.maxBound c 0) (childMaxB n'.minBound n'.maxBound c 0) (n'.depth + 1)))
            (some (ONode.new (childMinB n'.minBound n'.maxBound c 1) (childMaxB n'.minBound n'.maxBound c 1) (n'.depth + 1)))
            (some (ONode.new (childMinB n'.minBound n'.maxBound c 2) (childMaxB n'.minBound n'.maxBound c 2) (n'.depth + 1)))
            (some (ONode.new (childMinB n'.minBound n'.maxBound c 3) (childMaxB n'.minBound n'.maxBound c 3) (n'.depth + 1)))
            (some (ONode.new (childMinB n'.minBound n'.maxBound c 4) (childMaxB n'.minBound n'.maxBound c 4) (n'.depth + 1)))
            (some (ONode.new (childMinB n'.minBound n'.maxBound c 5) (childMaxB n'.minBound n'.maxBound c 5) (n'.depth + 1)))
            (some (ONode.new (childMinB n'.minBound n'.maxBound c 6) (childMaxB n'.minBound n'.maxBound c 6) (n'.depth + 1)))
            (some (ONode.new (childMinB n'.minBound n'.maxBound c 7) (childMaxB n'.minBound n'.maxBound c 7) (n'.depth + 1)))
            []
        n'.pointIndices.foldl (fun acc jdx =>
          let p := cloudPos cloud jdx
          let oct := octantIndex c p
          match acc.getChild oct with
          | some k => acc.setChild oct (some (insertPoint cloud fuel k jdx p))
          | none => acc) base
      else n'
    else
      let oct := n.getOctant pos
      match n.getChild oct with
      | some k => n.setChild oct (some (insertPoint cloud fuel k idx pos))
      | none => n

/-- `OctreeNode::subdivide(cloud)`: create the eight octant children at
depth + 1, move the index list out, and re-route every held index into
the child selected by its octant against this node\'s center.  (In
`insertPoint` this body is inlined at its unique call site;
`insertPoint_subdivide_eq` proves the two agree.) -/
def subdivide (cloud : List Point) (fuel : Nat) (n : ONode) : ONode :=
  let c := n.center
  let base : ONode :=
    .mk n.minBound n.maxBound n.depth
      (some (ONode.new (childMinB n.minBound n.maxBound c 0) (childMaxB n.minBound n.maxBound c 0) (n.depth + 1)))
      (some (ONode.new (childMinB n.minBound n.maxBound c 1) (childMaxB n.minBound n.maxBound c 1) (n.depth + 1)))
      (some (ONode.new (childMinB n.minBound n.maxBound c 2) (childMaxB n.minBound n.maxBound c 2) (n.depth + 1)))
      (some (ONode.new (childMinB n.minBound n.maxBound c 3) (childMaxB n.minBound n.maxBound c 3) (n.depth + 1)))
      (some (ONode.new (childMinB n.minBound n.maxBound c 4) (childMaxB n.minBound n.maxBound c 4) (n.depth + 1)))
      (some (ONode.new (childMinB n.minBound n.maxBound c 5) (childMaxB n.minBound n.maxBound c 5) (n.depth + 1)))
      (some (ONode.new (childMinB n.minBound n.maxBound c 6) (childMaxB n.minBound n.maxBound c 6) (n.depth + 1)))
      (some (ONode.new (childMinB n.minBound n.maxBound c 7) (childMaxB n.minBound n.maxBound c 7) (n.depth + 1)))
      []
  n.pointIndices.foldl (fun acc jdx =>
    let p := cloudPos cloud jdx
    let oct := octantIndex c p
    match acc.getChild oct with
    | some k => acc.setChild oct (some (insertPoint cloud fuel k jdx p))
    | none => acc) base

/-- `Octree::build()`: no-op on an empty cloud, else create the root over
the cloud bounds and insert every point by index in cloud order. -/
def buildWithFuel (fuel : Nat) (cloud : List Point) : Option ONode :=
  if cloud.isEmpty then none
  else
    let root := ONode.new (cloudMinBound cloud) (cloudMaxBound cloud) 0
    some ((List.range cloud.length).foldl
      (fun r i => insertPoint cloud fuel r i (cloudPos cloud i)) root)

/-- `Octree::build()` (fuel `MAX_DEPTH + 1` always suffices; see
`insertPoint_wf` and `build_wf`). -/
def build (cloud : List Point) : Option ONode :=
  buildWithFuel (MAX_DEPTH + 1) cloud

/-- `glm::vec4`: a frustum plane `(x, y, z, w)`, inside when
`x*px + y*py + z*pz + w ≥ 0`. -/
structure Vec4 where
  x : ℚ
  y : ℚ
  z : ℚ
  w : ℚ
deriving DecidableEq

/-- `Octree::distanceToPlane(point, plane)`. -/
def distanceToPlane (p : Vec3) (pl : Vec4) : ℚ :=
  pl.x * p.x + pl.y * p.y + pl.z * p.z + pl.w

/-- `Octree::isPointInFrustum`: non-negative signed distance to every plane. -/
def isPointInFrustum (p : Vec3) (frustum : List Vec4) : Bool :=
  frustum.all (fun pl => ¬ distanceToPlane p pl < 0)

/-- The "most positive" box corner for a plane (`p_vertex` in
`isNodeInFrustum`): per axis, the max extent when the plane coefficient is
positive, else the min extent. -/
def pVertex (mn mx : Vec3) (pl : Vec4) : Vec3 :=
  ⟨if pl.x > 0 then mx.x else mn.x,
   if pl.y > 0 then mx.y else mn.y,
   if pl.z > 0 then mx.z else mn.z⟩

/-- `Octree::isNodeInFrustum`: keep the node unless its most-positive
corner is strictly outside some plane. -/
def isNodeInFrustum (n : ONode) (frustum : List Vec4) : Bool :=
  frustum.all (fun pl => ¬ distanceToPlane (pVertex n.minBound n.maxBound pl) pl < 0)

/-- `Octree::queryFrustumRecursive`: prune via `isNodeInFrustum`; at
leaves test each point against all six planes; else visit the non-null
children in slot order. -/
def queryFrustumRec (cloud : List Point) (frustum : List Vec4) : ONode → List Nat
  | n@(.mk _ _ _ c0 c1 c2 c3 c4 c5 c6 c7 pts) =>
    if ¬ isNodeInFrustum n frustum then []
    else if n.isLeaf then
      pts.filter (fun idx => isPointInFrustum (cloudPos cloud idx) frustum)
    else
      (match c0 with | none => [] | some k => queryFrustumRec cloud frustum k) ++
      (match c1 with | none => [] | some k => queryFrustumRec cloud frustum k) ++
      (match c2 with | none => [] | some k => queryFrustumRec cloud frustum k) ++
      (match c3 with | none => [] | some k => queryFrustumRec cloud frustum k) ++
      (match c4 with | none => [] | some k => queryFrustumRec cloud frustum k) ++
      (match c5 with | none => [] | some k => queryFrustumRec cloud frustum k) ++
      (match c6 with | none => [] | some k => queryFrustumRec cloud frustum k) ++
      (match c7 with | none => [] | some k => queryFrustumRec cloud frustum k)

/-- Is a position componentwise inside `[mn, mx]` (inclusive)? -/
def inBox (p mn mx : Vec3) : Prop :=
  mn.x ≤ p.x ∧ p.x ≤ mx.x ∧ mn.y ≤ p.y ∧ p.y ≤ mx.y ∧ mn.z ≤ p.z ∧ p.z ≤ mx.z

instance (p mn mx : Vec3) : Decidable (inBox p mn mx) := by
  unfold inBox; infer_instance

/-- The AABB–AABB disjointness test that prunes a node in
`queryBoxRecursive` (separated on some axis). -/
def boxesDisjoint (nmn nmx qmn qmx : Vec3) : Prop :=
  nmx.x < qmn.x ∨ nmn.x > qmx.x ∨ nmx.y < qmn.y ∨ nmn.y > qmx.y ∨
    nmx.z < qmn.z ∨ nmn.z > qmx.z

instance (a b c d : Vec3) : Decidable (boxesDisjoint a b c d) := by
  unfold boxesDisjoint; infer_instance

/-- `Octree::queryBoxRecursive`: prune on AABB disjointness; at leaves
keep points componentwise inside `[qmn, qmx]` (inclusive); else visit the
non-null children in slot order. -/
def queryBoxRec (cloud : List Point) (qmn qmx : Vec3) : ONode → List Nat
  | n@(.mk _ _ _ c0 c1 c2 c3 c4 c5 c6 c7 pts) =>
    if boxesDisjoint n.minBound n.maxBound qmn qmx then []
    else if n.isLeaf then
      pts.filter (fun idx => inBox (cloudPos cloud idx) qmn qmx)
    else
      (match c0 with | none => [] | some k => queryBoxRec cloud qmn qmx k) ++
      (match c1 with | none => [] | some k => queryBoxRec cloud qmn qmx k) ++
      (match c2 with | none => [] | some k => queryBoxRec cloud qmn qmx k) ++
      (match c3 with | none => [] | some k => queryBoxRec cloud qmn qmx k) ++
      (match c4 with | none => [] | some k => queryBoxRec cloud qmn qmx k) ++
      (match c5 with | none => [] | some k => queryBoxRec cloud qmn qmx k) ++
      (match c6 with | none => [] | some k => queryBoxRec cloud qmn qmx k) ++
      (match c7 with | none => [] | some k => queryBoxRec cloud qmn qmx k)

/-- `Octree::queryRadiusRecursive`: prune when the squared distance from
`center` to its clamp into the node box exceeds `radius²`; at leaves keep
points with exact squared distance `≤ radius²`; else visit the non-null
children in slot order. -/
def queryRadiusRec (cloud : List Point) (center : Vec3) (radius : ℚ) :
    ONode → List Nat
  | n@(.mk _ _ _ c0 c1 c2 c3 c4 c5 c6 c7 pts) =>
    if distSq center (vclamp center n.minBound n.maxBound) > radius * radius then
      []
    else if n.isLeaf then
      pts.filter (fun idx =>
        ¬ distSq (cloudPos cloud idx) center > radius * radius)
    else
      (match c0 with | none => [] | some k => queryRadiusRec cloud center radius k) ++
      (match c1 with | none => [] | some k => queryRadiusRec cloud center radius k) ++
      (match c2 with | none => [] | some k => queryRadiusRec cloud center radius k) ++
      (match c3 with | none => [] | some k => queryRadiusRec cloud center radius k) ++
      (match c4 with | none => [] | some k => queryRadiusRec cloud center radius k) ++
      (match c5 with | none => [] | some k => queryRadiusRec cloud center radius k) ++
      (match c6 with | none => [] | some k => queryRadiusRec cloud center radius k) ++
      (match c7 with | none => [] | some k => queryRadiusRec cloud center radius k)

/-- The decimation loop of `queryLODRecursive`: positions
`0, stride, 2*stride, ...` of the list (`for (i = 0; i < size; i += stride)`). -/
def stridedSample (l : List Nat) (stride : Nat) : List Nat :=
  (List.range l.length).filterMap
    (fun i => if i % stride = 0 then l.get? i else none)

/-- `stride = std::max(1, static_cast<int>(dist / base_distance))`; the
`int` cast truncates toward zero, which on the non-negative values used
here is the floor. -/
def lodStride (dist baseDist : ℚ) : Nat :=
  max 1 (Int.toNat ⌊dist / baseDist⌋)

/-- `Octree::queryLODRecursive`: frustum-pruned descent; a node with
`detail_ratio < 0.01` or depth ≥ 5 contributes a strided subsample of its
own index list, a near leaf contributes everything, otherwise visit the
non-null children in slot order. -/
def queryLODRec (cloud : List Point) (viewPos : Vec3) (frustum : List Vec4)
    (baseDist : ℚ) : ONode → List Nat
  | n@(.mk _ _ _ c0 c1 c2 c3 c4 c5 c6 c7 pts) =>
    if ¬ isNodeInFrustum n frustum then []
    else
      let dist := vlength (vsub viewPos n.center)
      let node_size := vlength (vsub n.maxBound n.minBound)
      let detail_ratio := node_size / dist
      if detail_ratio < DETAIL_CUTOFF ∨ n.depth ≥ LOD_DEPTH_CUTOFF then
        if pts.isEmpty then []
        else stridedSample pts (lodStride dist baseDist)
      else if n.isLeaf then pts
      else
        (match c0 with | none => [] | some k => queryLODRec cloud viewPos frustum baseDist k) ++
        (match c1 with | none => [] | some k => queryLODRec cloud viewPos frustum baseDist k) ++
        (match c2 with | none => [] | some k => queryLODRec cloud viewPos frustum baseDist k) ++
        (match c3 with | none => [] | some k => queryLODRec cloud viewPos frustum baseDist k) ++
        (match c4 with | none => [] | some k => queryLODRec cloud viewPos frustum baseDist k) ++
        (match c5 with | none => [] | some k => queryLODRec cloud viewPos frustum baseDist k) ++
        (match c6 with | none => [] | some k => queryLODRec cloud viewPos frustum baseDist k) ++
        (match c7 with | none => [] | some k => queryLODRec cloud viewPos frustum baseDist k)

/-- `Octree::queryFrustum`: empty on an unbuilt tree. -/
def queryFrustum (cloud : List Point) (root : Option ONode)
    (frustum : List Vec4) : List Nat :=
  match root with
  | none => []
  | some r => queryFrustumRec cloud frustum r

/-- `Octree::queryBox`: empty on an unbuilt tree. -/
def queryBox (cloud : List Point) (root : Option ONode) (qmn qmx : Vec3) :
    List Nat :=
  match root with
  | none => []
  | some r => queryBoxRec cloud qmn qmx r

/-- `Octree::queryRadius`: empty on an unbuilt tree. -/
def queryRadius (cloud : List Point) (root : Option ONode) (center : Vec3)
    (radius : ℚ) : List Nat :=
  match root with
  | none => []
  | some r => queryRadiusRec cloud center radius r

/-- `Octree::queryLOD`: empty on an unbuilt tree. -/
def queryLOD (cloud : List Point) (root : Option ONode) (viewPos : Vec3)
    (frustum : List Vec4) (baseDist : ℚ) : List Nat :=
  match root with
  | none => []
  | some r => queryLODRec cloud viewPos frustum baseDist r

/-- All point indices stored anywhere in the subtree rooted at a node
(this node\'s leaf list, then each non-null child\'s, in slot order). -/
def ONode.allIndices : ONode → List Nat
  | .mk _ _ _ c0 c1 c2 c3 c4 c5 c6 c7 pts =>
    pts ++
    (match c0 with | none => [] | some k => k.allIndices) ++
    (match c1 with | none => [] | some k => k.allIndices) ++
    (match c2 with | none => [] | some k => k.allIndices) ++
    (match c3 with | none => [] | some k => k.allIndices) ++
    (match c4 with | none => [] | some k => k.allIndices) ++
    (match c5 with | none => [] | some k => k.allIndices) ++
    (match c6 with | none => [] | some k => k.allIndices) ++
    (match c7 with | none => [] | some k => k.allIndices)

/-- Every node of the subtree rooted at a node (the node itself included). -/
def ONode.descendants : ONode → List ONode
  | n@(.mk _ _ _ c0 c1 c2 c3 c4 c5 c6 c7 _) =>
    n ::
    ((match c0 with | none => [] | some k => k.descendants) ++
     (match c1 with | none => [] | some k => k.descendants) ++
     (match c2 with | none => [] | some k => k.descendants) ++
     (match c3 with | none => [] | some k => k.descendants) ++
     (match c4 with | none => [] | some k => k.descendants) ++
     (match c5 with | none => [] | some k => k.descendants) ++
     (match c6 with | none => [] | some k => k.descendants) ++
     (match c7 with | none => [] | some k => k.descendants))

/-- A slot address in the pool: (block number, offset inside the block).
Distinct pairs are distinct `T*` addresses and vice versa. -/
structure Slot where
  block : Nat
  offset : Nat
deriving DecidableEq

/-- `pcv::MemoryPool<T>`: block size, per-block bump counts (`used`) in
allocation order (`blocks_.back()` is the last entry), the free list in
push order (`back()`/`pop_back` act on the last entry), and the exact
outstanding-allocation count. -/
structure PoolState where
  blockSize : Nat
  blocks : List Nat
  freeList : List Slot
  allocatedCount : Nat
deriving DecidableEq

/-- `MemoryPool(block_size)`: the constructor calls `allocateNewBlock()`
once, so a fresh pool has one empty block. -/
def mkPool (blockSize : Nat) : PoolState :=
  ⟨blockSize, [0], [], 0⟩

/-- `allocateNewBlock()`: push one fresh block. -/
def allocateNewBlock (s : PoolState) : PoolState :=
  { s with blocks := s.blocks ++ [0] }

/-- `free_list_.back(); free_list_.pop_back()` followed by the count
increment — the tail of `allocate()`.  Popping an empty `std::vector` is
undefined behavior, modelled as `none`. -/
def popFreeList (s : PoolState) : Option (Slot × PoolState) :=
  match s.freeList.getLast? with
  | none => none
  | some p =>
    some (p, { s with freeList := s.freeList.dropLast,
                      allocatedCount := s.allocatedCount + 1 })

/-- `MemoryPool<T>::allocate()`, exactly as written: if the free list is
empty and the current (last) block has space, bump-allocate from it;
if the free list is empty and the block is full, call `allocateNewBlock()`
and then fall through to the free-list pop (which pops an empty vector);
otherwise pop the free list. -/
def allocate (s : PoolState) : Option (Slot × PoolState) :=
  if s.freeList.isEmpty then
    let used := s.blocks.getLastD 0
    if used < s.blockSize then
      some (⟨s.blocks.length - 1, used⟩,
        { s with blocks := s.blocks.dropLast ++ [used + 1],
                 allocatedCount := s.allocatedCount + 1 })
    else
      popFreeList (allocateNewBlock s)
  else
    popFreeList s

/-- `MemoryPool<T>::deallocate(ptr)` on a non-null slot: run the slot's
destructor (no effect on the model), push the address onto the free list
and decrement the count. -/
def deallocate (s : PoolState) (p : Slot) : PoolState :=
  { s with freeList := s.freeList ++ [p],
           allocatedCount := s.allocatedCount - 1 }

/-- `getCapacity()`: `blocks_.size() * block_size_`. -/
def capacity (s : PoolState) : Nat := s.blocks.length * s.blockSize

/-- `k` consecutive `allocate()` calls, collecting the returned addresses;
`none` as soon as one of them pops an empty free list. -/
def allocateSeq (s : PoolState) : Nat → Option (List Slot × PoolState)
  | 0 => some ([], s)
  | k + 1 =>
    match allocate s with
    | none => none
    | some (p, s1) =>
      match allocateSeq s1 k with
      | none => none
      | some (ps, s2) => some (p :: ps, s2)

/-- The claim-shape conditions tying a child in slot `i` to its parent
box `[mn, mx]` and depth `d`: the child box is octant `i` of the parent
split at its center and the child is one level deeper. -/
def ChildShape (mn mx : Vec3) (d : Nat) (i : Nat) (k : ONode) : Prop :=
  k.minBound = childMinB mn mx (vscale (1/2) (vadd mn mx)) i ∧
  k.maxBound = childMaxB mn mx (vscale (1/2) (vadd mn mx)) i ∧
  k.depth = d + 1

/-- The structural invariant of every tree `build()` produces: a node is
either a leaf (all eight child slots null) whose indices are in-bounds
references to cloud points lying inside the node box, or an internal node
(all eight slots populated with the octant children, index list empty)
that subdivided strictly below the maximum depth. -/
inductive WF (cloud : List Point) : ONode → Prop where
  | leaf (mn mx : Vec3) (d : Nat) (ps : List Nat)
      (hbox : vle mn mx) (hd : d ≤ MAX_DEPTH)
      (hpts : ∀ i ∈ ps, i < cloud.length ∧ inBox (cloudPos cloud i) mn mx) :
      WF cloud (.mk mn mx d none none none none none none none none ps)
  | internal (mn mx : Vec3) (d : Nat) (k0 k1 k2 k3 k4 k5 k6 k7 : ONode)
      (hbox : vle mn mx) (hd : d < MAX_DEPTH)
      (hs0 : ChildShape mn mx d 0 k0) (hs1 : ChildShape mn mx d 1 k1)
      (hs2 : ChildShape mn mx d 2 k2) (hs3 : ChildShape mn mx d 3 k3)
      (hs4 : ChildShape mn mx d 4 k4) (hs5 : ChildShape mn mx d 5 k5)
      (hs6 : ChildShape mn mx d 6 k6) (hs7 : ChildShape mn mx d 7 k7)
      (hw0 : WF cloud k0) (hw1 : WF cloud k1) (hw2 : WF cloud k2)
      (hw3 : WF cloud k3) (hw4 : WF cloud k4) (hw5 : WF cloud k5)
      (hw6 : WF cloud k6) (hw7 : WF cloud k7) :
      WF cloud (.mk mn mx d (some k0) (some k1) (some k2) (some k3)
        (some k4) (some k5) (some k6) (some k7) [])

/-- A frustum whose six planes are all `(0,0,0,0)`: every signed distance
is 0 ≥ 0, so it accepts every node and every point. -/
def frustum0 : List Vec4 := List.replicate 6 ⟨0, 0, 0, 0⟩

/-- 101 points at unit spacing on the x-axis: the 101st insertion makes
the root subdivide once (the low 51 and high 50 points split at x = 50),
giving an internal root whose own index list is empty. -/
def lineCloud : List Point :=
  (List.range 101).map (fun i => mkPoint ⟨(i : ℚ), 0, 0⟩)

/-- The root leaf over the line cloud bounds holding no indices yet. -/
def lineLeaf : ONode :=
  .mk ⟨0, 0, 0⟩ ⟨100, 0, 0⟩ 0 none none none none none none none none []

/-- A child of the subdivided line-cloud root on the low-x side. -/
def lineLo (l : List Nat) : ONode :=
  .mk ⟨0, 0, 0⟩ ⟨50, 0, 0⟩ 1 none none none none none none none none l

/-- A child of the subdivided line-cloud root on the high-x side. -/
def lineHi (l : List Nat) : ONode :=
  .mk ⟨50, 0, 0⟩ ⟨100, 0, 0⟩ 1 none none none none none none none none l

/-- The subdivided line-cloud root with the given low/high slot-0/slot-1
index lists (the other six octants are empty: the cloud is flat in y, z). -/
def lineMid (lo hi : List Nat) : ONode :=
  .mk ⟨0, 0, 0⟩ ⟨100, 0, 0⟩ 0
    (some (lineLo lo)) (some (lineHi hi)) (some (lineLo [])) (some (lineHi []))
    (some (lineLo [])) (some (lineHi [])) (some (lineLo [])) (some (lineHi []))
    []

/-- What `build lineCloud` produces (proved in `build_lineCloud_eq`). -/
def lineRoot : ONode := lineMid (List.range 51) (List.range' 51 50)

/-- The viewpoint used against the line cloud: distance 10001 from the
root center `(50,0,0)`, making the root's detail ratio `100/10001 < 0.01`. -/
def lineView : Vec3 := ⟨10051, 0, 0⟩

/-- The 10×10×10 unit-spaced integer grid of 1000 points (x outer, then
y, then z, as in the repository test fixture). -/
def grid1000 : List Point :=
  (List.range 10).flatMap (fun x =>
    (List.range 10).flatMap (fun y =>
      (List.range 10).map (fun z => mkPoint ⟨(x : ℚ), (y : ℚ), (z : ℚ)⟩)))

/-- A one-point cloud used to instantiate theorems about built trees. -/
def cloud1 : List Point := [mkPoint ⟨0, 0, 0⟩]

/-- A two-point cloud used to instantiate theorems about built trees. -/
def cloud2 : List Point := [mkPoint ⟨0, 0, 0⟩, mkPoint ⟨2, 0, 0⟩]

/-- The induction package carried through `insertPoint`: inserting an
in-bounds point that lies in a well-formed node box preserves
well-formedness, the node box and depth, and prepends the index to the
subtree's index multiset. -/
def InsertSpec (cloud : List Point) (f : Nat) : Prop :=
  ∀ (n : ONode) (idx : Nat), WF cloud n → idx < cloud.length →
    inBox (cloudPos cloud idx) n.minBound n.maxBound →
    MAX_DEPTH + 1 ≤ f + n.depth →
    WF cloud (insertPoint cloud f n idx (cloudPos cloud idx)) ∧
    (insertPoint cloud f n idx (cloudPos cloud idx)).minBound = n.minBound ∧
    (insertPoint cloud f n idx (cloudPos cloud idx)).maxBound = n.maxBound ∧
    (insertPoint cloud f n idx (cloudPos cloud idx)).depth = n.depth ∧
    ((insertPoint cloud f n idx (cloudPos cloud idx)).allIndices : Multiset Nat) =
      idx ::ₘ ↑n.allIndices

/-- The body of the child-routing step shared by the `else` branch of
`insertPoint` and the redistribution loop of `subdivide`, applied to an
internal node with children `k0..k7`: route index `j` into the child of
its octant. -/
def routeResult (cloud : List Point) (f : Nat) (mn mx : Vec3) (d : Nat)
    (k0 k1 k2 k3 k4 k5 k6 k7 : ONode) (j : Nat) : ONode :=
  match (ONode.mk mn mx d (some k0) (some k1) (some k2) (some k3)
      (some k4) (some k5) (some k6) (some k7) []).getChild
      (octantIndex (vscale (1/2) (vadd mn mx)) (cloudPos cloud j)) with
  | some k => (ONode.mk mn mx d (some k0) (some k1) (some k2) (some k3)
      (some k4) (some k5) (some k6) (some k7) []).setChild
      (octantIndex (vscale (1/2) (vadd mn mx)) (cloudPos cloud j))
      (some (insertPoint cloud f k j (cloudPos cloud j)))
  | none => ONode.mk mn mx d (some k0) (some k1) (some k2) (some k3)
      (some k4) (some k5) (some k6) (some k7) []

theorem minBound_mk (a b : Vec3) (d : Nat) (c0 c1 c2 c3 c4 c5 c6 c7 : Option ONode)
    (ps : List Nat) : (ONode.mk a b d c0 c1 c2 c3 c4 c5 c6 c7 ps).minBound = a := rfl

theorem maxBound_mk (a b : Vec3) (d : Nat) (c0 c1 c2 c3 c4 c5 c6 c7 : Option ONode)
    (ps : List Nat) : (ONode.mk a b d c0 c1 c2 c3 c4 c5 c6 c7 ps).maxBound = b := rfl

theorem depth_mk (a b : Vec3) (d : Nat) (c0 c1 c2 c3 c4 c5 c6 c7 : Option ONode)
    (ps : List Nat) : (ONode.mk a b d c0 c1 c2 c3 c4 c5 c6 c7 ps).depth = d := rfl

theorem pointIndices_mk (a b : Vec3) (d : Nat) (c0 c1 c2 c3 c4 c5 c6 c7 : Option ONode)
    (ps : List Nat) : (ONode.mk a b d c0 c1 c2 c3 c4 c5 c6 c7 ps).pointIndices = ps := rfl

/-- Every octant code is below 8. -/
theorem octantIndex_lt_8 (c p : Vec3) : octantIndex c p < 8 := by
  unfold octantIndex; split_ifs <;> norm_num

/-- The center of a non-empty box lies inside it. -/
theorem center_inBox {mn mx : Vec3} (h : vle mn mx) :
    inBox (vscale (1/2) (vadd mn mx)) mn mx := by
  obtain ⟨h1, h2, h3⟩ := h
  refine ⟨?_, ?_, ?_, ?_, ?_, ?_⟩ <;> (simp [vscale, vadd]; linarith)

/-- Octant boxes are non-empty and contained in the parent box. -/
theorem childBox_sub {mn mx : Vec3} (h : vle mn mx) (i : Nat) :
    vle (childMinB mn mx (vscale (1/2) (vadd mn mx)) i)
        (childMaxB mn mx (vscale (1/2) (vadd mn mx)) i) ∧
    ∀ p : Vec3, inBox p (childMinB mn mx (vscale (1/2) (vadd mn mx)) i)
        (childMaxB mn mx (vscale (1/2) (vadd mn mx)) i) → inBox p mn mx := by
  obtain ⟨h1, h2, h3⟩ := h
  constructor
  · unfold childMinB childMaxB vle
    split_ifs <;>
      (refine ⟨?_, ?_, ?_⟩ <;> (simp only [vscale, vadd]; norm_num <;> linarith))
  · intro p hp
    unfold childMinB childMaxB inBox at hp
    simp only [vscale, vadd] at hp
    obtain ⟨p1, p2, p3, p4, p5, p6⟩ := hp
    split_ifs at p1 p2 p3 p4 p5 p6 <;>
      (refine ⟨?_, ?_, ?_, ?_, ?_, ?_⟩ <;> linarith)

/-- A point of the parent box lies inside the octant child its code
selects (ties route to the lesser side). -/
theorem octant_route {mn mx p : Vec3} (h : vle mn mx) (hp : inBox p mn mx) :
    inBox p
      (childMinB mn mx (vscale (1/2) (vadd mn mx)) (octantIndex (vscale (1/2) (vadd mn mx)) p))
      (childMaxB mn mx (vscale (1/2) (vadd mn mx)) (octantIndex (vscale (1/2) (vadd mn mx)) p)) := by
  obtain ⟨h1, h2, h3⟩ := h
  obtain ⟨p1, p2, p3, p4, p5, p6⟩ := hp
  unfold octantIndex
  simp only [vscale, vadd] at *
  split_ifs with b1 b2 b3 <;>
    (simp +decide [childMinB, childMaxB, inBox, vscale, vadd]
     refine ⟨?_, ?_, ?_, ?_, ?_, ?_⟩ <;> linarith)

/-- The inlined subdivision branch of `insertPoint` is exactly
`subdivide` applied to the leaf with the new index appended. -/
theorem insertPoint_subdivide_eq (cloud : List Point) (fuel : Nat) (n : ONode)
    (idx : Nat) (pos : Vec3) (hleaf : n.isLeaf = true)
    (hover : (n.withIndices (n.pointIndices ++ [idx])).pointIndices.length >
        MAX_POINTS_PER_LEAF ∧ n.depth < MAX_DEPTH) :
    insertPoint cloud (fuel + 1) n idx pos =
      subdivide cloud fuel (n.withIndices (n.pointIndices ++ [idx])) := by
  cases n with
  | mk a b d c0 c1 c2 c3 c4 c5 c6 c7 ps =>
    have h1 : MAX_POINTS_PER_LEAF < ps.length + 1 := by
      simpa [ONode.withIndices, ONode.pointIndices] using hover.1
    have h2 : d < MAX_DEPTH := by simpa [ONode.depth] using hover.2
    simp [insertPoint, subdivide, hleaf, hover, ONode.withIndices,
      ONode.minBound, ONode.maxBound, ONode.depth, ONode.center,
      ONode.pointIndices]
    intro h
    exact absurd (h h1) (by omega)


/-- Depth of a well-formed node is at most `MAX_DEPTH`. -/
theorem WF_depth_le {cloud : List Point} {n : ONode} (h : WF cloud n) :
    n.depth ≤ MAX_DEPTH := by
  cases h with
  | leaf mn mx d ps hb hd hpts => simpa [ONode.depth] using hd
  | internal mn mx d k0 k1 k2 k3 k4 k5 k6 k7 hb hd =>
    simp only [ONode.depth]; omega

theorem allIndices_leaf (a b : Vec3) (d : Nat) (ps : List Nat) :
    (ONode.mk a b d none none none none none none none none ps).allIndices = ps := by
  show ps ++ [] ++ [] ++ [] ++ [] ++ [] ++ [] ++ [] ++ [] = ps
  simp

theorem allIndices_internal (a b : Vec3) (d : Nat) (k0 k1 k2 k3 k4 k5 k6 k7 : ONode)
    (ps : List Nat) :
    (ONode.mk a b d (some k0) (some k1) (some k2) (some k3) (some k4) (some k5)
      (some k6) (some k7) ps).allIndices =
    ps ++ k0.allIndices ++ k1.allIndices ++ k2.allIndices ++ k3.allIndices ++
      k4.allIndices ++ k5.allIndices ++ k6.allIndices ++ k7.allIndices := rfl

/-- A generic accumulator invariant for the redistribution loop: folding a
step that preserves `P` and prepends its index to the subtree multiset
yields `P` and the whole list prepended. -/
theorem routeFold (g : ONode → Nat → ONode) (P : ONode → Prop) (C : Nat → Prop)
    (hstep : ∀ acc j, P acc → C j →
      P (g acc j) ∧ ((g acc j).allIndices : Multiset Nat) = j ::ₘ ↑acc.allIndices) :
    ∀ (l : List Nat) (acc : ONode), (∀ i ∈ l, C i) → P acc →
      P (l.foldl g acc) ∧
      ((l.foldl g acc).allIndices : Multiset Nat) = ↑l + ↑acc.allIndices := by
  intro l
  induction l with
  | nil => intro acc _ hP; exact ⟨hP, by simp⟩
  | cons a t ihl =>
    intro acc hC hP
    obtain ⟨hP1, hm1⟩ := hstep acc a hP (hC a (by simp))
    obtain ⟨hP2, hm2⟩ := ihl (g acc a) (fun i hi => hC i (by simp [hi])) hP1
    refine ⟨hP2, ?_⟩
    rw [List.foldl_cons, hm2, hm1]
    simp [Multiset.add_cons, Multiset.cons_add, Multiset.cons_coe]



/-- `routeResult` when the octant code is `0`. -/
theorem routeResult_eq0 (cloud : List Point) (f : Nat) (mn mx : Vec3) (d : Nat)
    (k0 k1 k2 k3 k4 k5 k6 k7 : ONode) (j : Nat)
    (hx : ¬ (vscale (1/2) (vadd mn mx)).x < (cloudPos cloud j).x) (hy : ¬ (vscale (1/2) (vadd mn mx)).y < (cloudPos cloud j).y) (hz : ¬ (vscale (1/2) (vadd mn mx)).z < (cloudPos cloud j).z) :
    routeResult cloud f mn mx d k0 k1 k2 k3 k4 k5 k6 k7 j =
    ONode.mk mn mx d (some (insertPoint cloud f k0 j (cloudPos cloud j))) (some k1) (some k2) (some k3) (some k4) (some k5) (some k6) (some k7) [] ∧
    octantIndex (vscale (1/2) (vadd mn mx)) (cloudPos cloud j) = 0 := by
  have hoct : octantIndex (vscale (1/2) (vadd mn mx)) (cloudPos cloud j) = 0 := by
    simp only [octantIndex, if_neg hx, if_neg hy, if_neg hz]
  refine ⟨?_, hoct⟩
  unfold routeResult
  rw [hoct]
  rfl

/-- `routeResult` when the octant code is `1`. -/
theorem routeResult_eq1 (cloud : List Point) (f : Nat) (mn mx : Vec3) (d : Nat)
    (k0 k1 k2 k3 k4 k5 k6 k7 : ONode) (j : Nat)
    (hx : (vscale (1/2) (vadd mn mx)).x < (cloudPos cloud j).x) (hy : ¬ (vscale (1/2) (vadd mn mx)).y < (cloudPos cloud j).y) (hz : ¬ (vscale (1/2) (vadd mn mx)).z < (cloudPos cloud j).z) :
    routeResult cloud f mn mx d k0 k1 k2 k3 k4 k5 k6 k7 j =
    ONode.mk mn mx d (some k0) (some (insertPoint cloud f k1 j (cloudPos cloud j))) (some k2) (some k3) (some k4) (some k5) (some k6) (some k7) [] ∧
    octantIndex (vscale (1/2) (vadd mn mx)) (cloudPos cloud j) = 1 := by
  have hoct : octantIndex (vscale (1/2) (vadd mn mx)) (cloudPos cloud j) = 1 := by
    simp only [octantIndex, if_pos hx, if_neg hy, if_neg hz]
  refine ⟨?_, hoct⟩
  unfold routeResult
  rw [hoct]
  rfl

/-- `routeResult` when the octant code is `2`. -/
theorem routeResult_eq2 (cloud : List Point) (f : Nat) (mn mx : Vec3) (d : Nat)
    (k0 k1 k2 k3 k4 k5 k6 k7 : ONode) (j : Nat)
    (hx : ¬ (vscale (1/2) (vadd mn mx)).x < (cloudPos cloud j).x) (hy : (vscale (1/2) (vadd mn mx)).y < (cloudPos cloud j).y) (hz : ¬ (vscale (1/2) (vadd mn mx)).z < (cloudPos cloud j).z) :
    routeResult cloud f mn mx d k0 k1 k2 k3 k4 k5 k6 k7 j =
    ONode.mk mn mx d (some k0) (some k1) (some (insertPoint cloud f k2 j (cloudPos cloud j))) (some k3) (some k4) (some k5) (some k6) (some k7) [] ∧
    octantIndex (vscale (1/2) (vadd mn mx)) (cloudPos cloud j) = 2 := by
  have hoct : octantIndex (vscale (1/2) (vadd mn mx)) (cloudPos cloud j) = 2 := by
    simp only [octantIndex, if_neg hx, if_pos hy, if_neg hz]
  refine ⟨?_, hoct⟩
  unfold routeResult
  rw [hoct]
  rfl

/-- `routeResult` when the octant code is `3`. -/
theorem routeResult_eq3 (cloud : List Point) (f : Nat) (mn mx : Vec3) (d : Nat)
    (k0 k1 k2 k3 k4 k5 k6 k7 : ONode) (j : Nat)
    (hx : (vscale (1/2) (vadd mn mx)).x < (cloudPos cloud j).x) (hy : (vscale (1/2) (vadd mn mx)).y < (cloudPos cloud j).y) (hz : ¬ (vscale (1/2) (vadd mn mx)).z < (cloudPos cloud j).z) :
    routeResult cloud f mn mx d k0 k1 k2 k3 k4 k5 k6 k7 j =
    ONode.mk mn mx d (some k0) (some k1) (some k2) (some (insertPoint cloud f k3 j (cloudPos cloud j))) (some k4) (some k5) (some k6) (some k7) [] ∧
    octantIndex (vscale (1/2) (vadd mn mx)) (cloudPos cloud j) = 3 := by
  have hoct : octantIndex (vscale (1/2) (vadd mn mx)) (cloudPos cloud j) = 3 := by
    simp only [octantIndex, if_pos hx, if_pos hy, if_neg hz]
  refine ⟨?_, hoct⟩
  unfold routeResult
  rw [hoct]
  rfl

/-- `routeResult` when the octant code is `4`. -/
theorem routeResult_eq4 (cloud : List Point) (f : Nat) (mn mx : Vec3) (d : Nat)
    (k0 k1 k2 k3 k4 k5 k6 k7 : ONode) (j : Nat)
    (hx : ¬ (vscale (1/2) (vadd mn mx)).x < (cloudPos cloud j).x) (hy : ¬ (vscale (1/2) (vadd mn mx)).y < (cloudPos cloud j).y) (hz : (vscale (1/2) (vadd mn mx)).z < (cloudPos cloud j).z) :
    routeResult cloud f mn mx d k0 k1 k2 k3 k4 k5 k6 k7 j =
    ONode.mk mn mx d (some k0) (some k1) (some k2) (some k3) (some (insertPoint cloud f k4 j (cloudPos cloud j))) (some k5) (some k6) (some k7) [] ∧
    octantIndex (vscale (1/2) (vadd mn mx)) (cloudPos cloud j) = 4 := by
  have hoct : octantIndex (vscale (1/2) (vadd mn mx)) (cloudPos cloud j) = 4 := by
    simp only [octantIndex, if_neg hx, if_neg hy, if_pos hz]
  refine ⟨?_, hoct⟩
  unfold routeResult
  rw [hoct]
  rfl

/-- `routeResult` when the octant code is `5`. -/
theorem routeResult_eq5 (cloud : List Point) (f : Nat) (mn mx : Vec3) (d : Nat)
    (k0 k1 k2 k3 k4 k5 k6 k7 : ONode) (j : Nat)
    (hx : (vscale (1/2) (vadd mn mx)).x < (cloudPos cloud j).x) (hy : ¬ (vscale (1/2) (vadd mn mx)).y < (cloudPos cloud j).y) (hz : (vscale (1/2) (vadd mn mx)).z < (cloudPos cloud j).z) :
    routeResult cloud f mn mx d k0 k1 k2 k3 k4 k5 k6 k7 j =
    ONode.mk mn mx d (some k0) (some k1) (some k2) (some k3) (some k4) (some (insertPoint cloud f k5 j (cloudPos cloud j))) (some k6) (some k7) [] ∧
    octantIndex (vscale (1/2) (vadd mn mx)) (cloudPos cloud j) = 5 := by
  have hoct : octantIndex (vscale (1/2) (vadd mn mx)) (cloudPos cloud j) = 5 := by
    simp only [octantIndex, if_pos hx, if_neg hy, if_pos hz]
  refine ⟨?_, hoct⟩
  unfold routeResult
  rw [hoct]
  rfl

/-- `routeResult` when the octant code is `6`. -/
theorem routeResult_eq6 (cloud : List Point) (f : Nat) (mn mx : Vec3) (d : Nat)
    (k0 k1 k2 k3 k4 k5 k6 k7 : ONode) (j : Nat)
    (hx : ¬ (vscale (1/2) (vadd mn mx)).x < (cloudPos cloud j).x) (hy : (vscale (1/2) (vadd mn mx)).y < (cloudPos cloud j).y) (hz : (vscale (1/2) (vadd mn mx)).z < (cloudPos cloud j).z) :
    routeResult cloud f mn mx d k0 k1 k2 k3 k4 k5 k6 k7 j =
    ONode.mk mn mx d (some k0) (some k1) (some k2) (some k3) (some k4) (some k5) (some (insertPoint cloud f k6 j (cloudPos cloud j))) (some k7) [] ∧
    octantIndex (vscale (1/2) (vadd mn mx)) (cloudPos cloud j) = 6 := by
  have hoct : octantIndex (vscale (1/2) (vadd mn mx)) (cloudPos cloud j) = 6 := by
    simp only [octantIndex, if_neg hx, if_pos hy, if_pos hz]
  refine ⟨?_, hoct⟩
  unfold routeResult
  rw [hoct]
  rfl

/-- `routeResult` when the octant code is `7`. -/
theorem routeResult_eq7 (cloud : List Point) (f : Nat) (mn mx : Vec3) (d : Nat)
    (k0 k1 k2 k3 k4 k5 k6 k7 : ONode) (j : Nat)
    (hx : (vscale (1/2) (vadd mn mx)).x < (cloudPos cloud j).x) (hy : (vscale (1/2) (vadd mn mx)).y < (cloudPos cloud j).y) (hz : (vscale (1/2) (vadd mn mx)).z < (cloudPos cloud j).z) :
    routeResult cloud f mn mx d k0 k1 k2 k3 k4 k5 k6 k7 j =
    ONode.mk mn mx d (some k0) (some k1) (some k2) (some k3) (some k4) (some k5) (some k6) (some (insertPoint cloud f k7 j (cloudPos cloud j))) [] ∧
    octantIndex (vscale (1/2) (vadd mn mx)) (cloudPos cloud j) = 7 := by
  have hoct : octantIndex (vscale (1/2) (vadd mn mx)) (cloudPos cloud j) = 7 := by
    simp only [octantIndex, if_pos hx, if_pos hy, if_pos hz]
  refine ⟨?_, hoct⟩
  unfold routeResult
  rw [hoct]
  rfl

/-- One routing step into an internal-shaped node: look up the octant
child of the point, insert there, and write the child back.  Preserves
well-formedness and shape and prepends the index — this is both the
`else` branch of `insertPoint` and the body of the redistribution loop of
`subdivide`. -/
theorem stepInsert_wf (cloud : List Point) (f : Nat) (ih : InsertSpec cloud f)
    (mn mx : Vec3) (d : Nat) (hb : vle mn mx) (hd : d < MAX_DEPTH)
    (hf : MAX_DEPTH + 1 ≤ f + (d + 1))
    (k0 k1 k2 k3 k4 k5 k6 k7 : ONode)
    (hs0 : ChildShape mn mx d 0 k0) (hs1 : ChildShape mn mx d 1 k1)
    (hs2 : ChildShape mn mx d 2 k2) (hs3 : ChildShape mn mx d 3 k3)
    (hs4 : ChildShape mn mx d 4 k4) (hs5 : ChildShape mn mx d 5 k5)
    (hs6 : ChildShape mn mx d 6 k6) (hs7 : ChildShape mn mx d 7 k7)
    (hw0 : WF cloud k0) (hw1 : WF cloud k1) (hw2 : WF cloud k2)
    (hw3 : WF cloud k3) (hw4 : WF cloud k4) (hw5 : WF cloud k5)
    (hw6 : WF cloud k6) (hw7 : WF cloud k7)
    (j : Nat) (hj : j < cloud.length ∧ inBox (cloudPos cloud j) mn mx) :
    (WF cloud (routeResult cloud f mn mx d k0 k1 k2 k3 k4 k5 k6 k7 j) ∧
      (routeResult cloud f mn mx d k0 k1 k2 k3 k4 k5 k6 k7 j).minBound = mn ∧
      (routeResult cloud f mn mx d k0 k1 k2 k3 k4 k5 k6 k7 j).maxBound = mx ∧
      (routeResult cloud f mn mx d k0 k1 k2 k3 k4 k5 k6 k7 j).depth = d ∧
      (routeResult cloud f mn mx d k0 k1 k2 k3 k4 k5 k6 k7 j).isLeaf = false) ∧
    ((routeResult cloud f mn mx d k0 k1 k2 k3 k4 k5 k6 k7 j).allIndices : Multiset Nat) =
      j ::ₘ ↑(ONode.mk mn mx d (some k0) (some k1) (some k2) (some k3)
        (some k4) (some k5) (some k6) (some k7) []).allIndices := by
  by_cases hx : (vscale (1/2) (vadd mn mx)).x < (cloudPos cloud j).x <;>
    by_cases hy : (vscale (1/2) (vadd mn mx)).y < (cloudPos cloud j).y <;>
      by_cases hz : (vscale (1/2) (vadd mn mx)).z < (cloudPos cloud j).z
  · obtain ⟨heq, hoct⟩ := routeResult_eq7 cloud f mn mx d k0 k1 k2 k3 k4 k5 k6 k7 j hx hy hz
    rw [heq]
    have hbx : inBox (cloudPos cloud j) k7.minBound k7.maxBound := by
      rw [hs7.1, hs7.2.1]
      have hq := octant_route hb hj.2
      rwa [hoct] at hq
    have hfo : MAX_DEPTH + 1 ≤ f + k7.depth := by rw [hs7.2.2]; omega
    obtain ⟨hw, hmn, hmx, hdp, hm⟩ := ih k7 j hw7 hj.1 hbx hfo
    have hsNew : ChildShape mn mx d 7 (insertPoint cloud f k7 j (cloudPos cloud j)) :=
      ⟨by rw [hmn, hs7.1], by rw [hmx, hs7.2.1], by rw [hdp, hs7.2.2]⟩
    refine ⟨⟨WF.internal mn mx d _ _ _ _ _ _ _ _ hb hd hs0 hs1 hs2 hs3 hs4 hs5 hs6 hsNew hw0 hw1 hw2 hw3 hw4 hw5 hw6 hw,
      rfl, rfl, rfl, rfl⟩, ?_⟩
    rw [allIndices_internal, allIndices_internal]
    simp only [← Multiset.coe_add, hm, ← Multiset.singleton_add]
    abel
  · obtain ⟨heq, hoct⟩ := routeResult_eq3 cloud f mn mx d k0 k1 k2 k3 k4 k5 k6 k7 j hx hy hz
    rw [heq]
    have hbx : inBox (cloudPos cloud j) k3.minBound k3.maxBound := by
      rw [hs3.1, hs3.2.1]
      have hq := octant_route hb hj.2
      rwa [hoct] at hq
    have hfo : MAX_DEPTH + 1 ≤ f + k3.depth := by rw [hs3.2.2]; omega
    obtain ⟨hw, hmn, hmx, hdp, hm⟩ := ih k3 j hw3 hj.1 hbx hfo
    have hsNew : ChildShape mn mx d 3 (insertPoint cloud f k3 j (cloudPos cloud j)) :=
      ⟨by rw [hmn, hs3.1], by rw [hmx, hs3.2.1], by rw [hdp, hs3.2.2]⟩
    refine ⟨⟨WF.internal mn mx d _ _ _ _ _ _ _ _ hb hd hs0 hs1 hs2 hsNew hs4 hs5 hs6 hs7 hw0 hw1 hw2 hw hw4 hw5 hw6 hw7,
      rfl, rfl, rfl, rfl⟩, ?_⟩
    rw [allIndices_internal, allIndices_internal]
    simp only [← Multiset.coe_add, hm, ← Multiset.singleton_add]
    abel
  · obtain ⟨heq, hoct⟩ := routeResult_eq5 cloud f mn mx d k0 k1 k2 k3 k4 k5 k6 k7 j hx hy hz
    rw [heq]
    have hbx : inBox (cloudPos cloud j) k5.minBound k5.maxBound := by
      rw [hs5.1, hs5.2.1]
      have hq := octant_route hb hj.2
      rwa [hoct] at hq
    have hfo : MAX_DEPTH + 1 ≤ f + k5.depth := by rw [hs5.2.2]; omega
    obtain ⟨hw, hmn, hmx, hdp, hm⟩ := ih k5 j hw5 hj.1 hbx hfo
    have hsNew : ChildShape mn mx d 5 (insertPoint cloud f k5 j (cloudPos cloud j)) :=
      ⟨by rw [hmn, hs5.1], by rw [hmx, hs5.2.1], by rw [hdp, hs5.2.2]⟩
    refine ⟨⟨WF.internal mn mx d _ _ _ _ _ _ _ _ hb hd hs0 hs1 hs2 hs3 hs4 hsNew hs6 hs7 hw0 hw1 hw2 hw3 hw4 hw hw6 hw7,
      rfl, rfl, rfl, rfl⟩, ?_⟩
    rw [allIndices_internal, allIndices_internal]
    simp only [← Multiset.coe_add, hm, ← Multiset.singleton_add]
    abel
  · obtain ⟨heq, hoct⟩ := routeResult_eq1 cloud f mn mx d k0 k1 k2 k3 k4 k5 k6 k7 j hx hy hz
    rw [heq]
    have hbx : inBox (cloudPos cloud j) k1.minBound k1.maxBound := by
      rw [hs1.1, hs1.2.1]
      have hq := octant_route hb hj.2
      rwa [hoct] at hq
    have hfo : MAX_DEPTH + 1 ≤ f + k1.depth := by rw [hs1.2.2]; omega
    obtain ⟨hw, hmn, hmx, hdp, hm⟩ := ih k1 j hw1 hj.1 hbx hfo
    have hsNew : ChildShape mn mx d 1 (insertPoint cloud f k1 j (cloudPos cloud j)) :=
      ⟨by rw [hmn, hs1.1], by rw [hmx, hs1.2.1], by rw [hdp, hs1.2.2]⟩
    refine ⟨⟨WF.internal mn mx d _ _ _ _ _ _ _ _ hb hd hs0 hsNew hs2 hs3 hs4 hs5 hs6 hs7 hw0 hw hw2 hw3 hw4 hw5 hw6 hw7,
      rfl, rfl, rfl, rfl⟩, ?_⟩
    rw [allIndices_internal, allIndices_internal]
    simp only [← Multiset.coe_add, hm, ← Multiset.singleton_add]
    abel
  · obtain ⟨heq, hoct⟩ := routeResult_eq6 cloud f mn mx d k0 k1 k2 k3 k4 k5 k6 k7 j hx hy hz
    rw [heq]
    have hbx : inBox (cloudPos cloud j) k6.minBound k6.maxBound := by
      rw [hs6.1, hs6.2.1]
      have hq := octant_route hb hj.2
      rwa [hoct] at hq
    have hfo : MAX_DEPTH + 1 ≤ f + k6.depth := by rw [hs6.2.2]; omega
    obtain ⟨hw, hmn, hmx, hdp, hm⟩ := ih k6 j hw6 hj.1 hbx hfo
    have hsNew : ChildShape mn mx d 6 (insertPoint cloud f k6 j (cloudPos cloud j)) :=
      ⟨by rw [hmn, hs6.1], by rw [hmx, hs6.2.1], by rw [hdp, hs6.2.2]⟩
    refine ⟨⟨WF.internal mn mx d _ _ _ _ _ _ _ _ hb hd hs0 hs1 hs2 hs3 hs4 hs5 hsNew hs7 hw0 hw1 hw2 hw3 hw4 hw5 hw hw7,
      rfl, rfl, rfl, rfl⟩, ?_⟩
    rw [allIndices_internal, allIndices_internal]
    simp only [← Multiset.coe_add, hm, ← Multiset.singleton_add]
    abel
  · obtain ⟨heq, hoct⟩ := routeResult_eq2 cloud f mn mx d k0 k1 k2 k3 k4 k5 k6 k7 j hx hy hz
    rw [heq]
    have hbx : inBox (cloudPos cloud j) k2.minBound k2.maxBound := by
      rw [hs2.1, hs2.2.1]
      have hq := octant_route hb hj.2
      rwa [hoct] at hq
    have hfo : MAX_DEPTH + 1 ≤ f + k2.depth := by rw [hs2.2.2]; omega
    obtain ⟨hw, hmn, hmx, hdp, hm⟩ := ih k2 j hw2 hj.1 hbx hfo
    have hsNew : ChildShape mn mx d 2 (insertPoint cloud f k2 j (cloudPos cloud j)) :=
      ⟨by rw [hmn, hs2.1], by rw [hmx, hs2.2.1], by rw [hdp, hs2.2.2]⟩
    refine ⟨⟨WF.internal mn mx d _ _ _ _ _ _ _ _ hb hd hs0 hs1 hsNew hs3 hs4 hs5 hs6 hs7 hw0 hw1 hw hw3 hw4 hw5 hw6 hw7,
      rfl, rfl, rfl, rfl⟩, ?_⟩
    rw [allIndices_internal, allIndices_internal]
    simp only [← Multiset.coe_add, hm, ← Multiset.singleton_add]
    abel
  · obtain ⟨heq, hoct⟩ := routeResult_eq4 cloud f mn mx d k0 k1 k2 k3 k4 k5 k6 k7 j hx hy hz
    rw [heq]
    have hbx : inBox (cloudPos cloud j) k4.minBound k4.maxBound := by
      rw [hs4.1, hs4.2.1]
      have hq := octant_route hb hj.2
      rwa [hoct] at hq
    have hfo : MAX_DEPTH + 1 ≤ f + k4.depth := by rw [hs4.2.2]; omega
    obtain ⟨hw, hmn, hmx, hdp, hm⟩ := ih k4 j hw4 hj.1 hbx hfo
    have hsNew : ChildShape mn mx d 4 (insertPoint cloud f k4 j (cloudPos cloud j)) :=
      ⟨by rw [hmn, hs4.1], by rw [hmx, hs4.2.1], by rw [hdp, hs4.2.2]⟩
    refine ⟨⟨WF.internal mn mx d _ _ _ _ _ _ _ _ hb hd hs0 hs1 hs2 hs3 hsNew hs5 hs6 hs7 hw0 hw1 hw2 hw3 hw hw5 hw6 hw7,
      rfl, rfl, rfl, rfl⟩, ?_⟩
    rw [allIndices_internal, allIndices_internal]
    simp only [← Multiset.coe_add, hm, ← Multiset.singleton_add]
    abel
  · obtain ⟨heq, hoct⟩ := routeResult_eq0 cloud f mn mx d k0 k1 k2 k3 k4 k5 k6 k7 j hx hy hz
    rw [heq]
    have hbx : inBox (cloudPos cloud j) k0.minBound k0.maxBound := by
      rw [hs0.1, hs0.2.1]
      have hq := octant_route hb hj.2
      rwa [hoct] at hq
    have hfo : MAX_DEPTH + 1 ≤ f + k0.depth := by rw [hs0.2.2]; omega
    obtain ⟨hw, hmn, hmx, hdp, hm⟩ := ih k0 j hw0 hj.1 hbx hfo
    have hsNew : ChildShape mn mx d 0 (insertPoint cloud f k0 j (cloudPos cloud j)) :=
      ⟨by rw [hmn, hs0.1], by rw [hmx, hs0.2.1], by rw [hdp, hs0.2.2]⟩
    refine ⟨⟨WF.internal mn mx d _ _ _ _ _ _ _ _ hb hd hsNew hs1 hs2 hs3 hs4 hs5 hs6 hs7 hw hw1 hw2 hw3 hw4 hw5 hw6 hw7,
      rfl, rfl, rfl, rfl⟩, ?_⟩
    rw [allIndices_internal, allIndices_internal]
    simp only [← Multiset.coe_add, hm, ← Multiset.singleton_add]
    abel

theorem withIndices_mk (a b : Vec3) (d : Nat)
    (c0 c1 c2 c3 c4 c5 c6 c7 : Option ONode) (ps l : List Nat) :
    (ONode.mk a b d c0 c1 c2 c3 c4 c5 c6 c7 ps).withIndices l =
    ONode.mk a b d c0 c1 c2 c3 c4 c5 c6 c7 l := rfl

theorem isLeaf_mk_none (a b : Vec3) (d : Nat)
    (c1 c2 c3 c4 c5 c6 c7 : Option ONode) (ps : List Nat) :
    (ONode.mk a b d none c1 c2 c3 c4 c5 c6 c7 ps).isLeaf = true := rfl

theorem isLeaf_mk_some (a b : Vec3) (d : Nat) (k : ONode)
    (c1 c2 c3 c4 c5 c6 c7 : Option ONode) (ps : List Nat) :
    (ONode.mk a b d (some k) c1 c2 c3 c4 c5 c6 c7 ps).isLeaf = false := rfl

/-- `insertPoint` on an internal node is exactly one routing step. -/
theorem insertPoint_internal_eq (cloud : List Point) (f : Nat) (mn mx : Vec3)
    (d : Nat) (k0 k1 k2 k3 k4 k5 k6 k7 : ONode) (idx : Nat) :
    insertPoint cloud (f + 1)
      (ONode.mk mn mx d (some k0) (some k1) (some k2) (some k3) (some k4)
        (some k5) (some k6) (some k7) []) idx (cloudPos cloud idx) =
    routeResult cloud f mn mx d k0 k1 k2 k3 k4 k5 k6 k7 idx := rfl

/-- `insertPoint` on a leaf that stays within capacity (or is already at
maximum depth) just appends the index. -/
theorem insertPoint_leaf_plain (cloud : List Point) (f : Nat) (mn mx : Vec3)
    (d : Nat) (ps : List Nat) (idx : Nat)
    (h : ¬((ps ++ [idx]).length > MAX_POINTS_PER_LEAF ∧ d < MAX_DEPTH)) :
    insertPoint cloud (f + 1)
      (ONode.mk mn mx d none none none none none none none none ps) idx
      (cloudPos cloud idx) =
    ONode.mk mn mx d none none none none none none none none (ps ++ [idx]) := by
  simp only [insertPoint, isLeaf_mk_none, if_true, withIndices_mk,
    pointIndices_mk, depth_mk]
  rw [if_neg h]

/-- `subdivide` on a leaf-shaped node is the redistribution fold from the
eight fresh octant children. -/
theorem subdivide_eq_fold (cloud : List Point) (f : Nat) (mn mx : Vec3)
    (d : Nat) (ps : List Nat) :
    subdivide cloud f (ONode.mk mn mx d none none none none none none none none ps) =
    ps.foldl (fun acc jdx =>
      match acc.getChild (octantIndex (vscale (1/2) (vadd mn mx)) (cloudPos cloud jdx)) with
      | some k => acc.setChild
          (octantIndex (vscale (1/2) (vadd mn mx)) (cloudPos cloud jdx))
          (some (insertPoint cloud f k jdx (cloudPos cloud jdx)))
      | none => acc)
      (ONode.mk mn mx d
        (some (ONode.new (childMinB mn mx (vscale (1/2) (vadd mn mx)) 0) (childMaxB mn mx (vscale (1/2) (vadd mn mx)) 0) (d + 1)))
        (some (ONode.new (childMinB mn mx (vscale (1/2) (vadd mn mx)) 1) (childMaxB mn mx (vscale (1/2) (vadd mn mx)) 1) (d + 1)))
        (some (ONode.new (childMinB mn mx (vscale (1/2) (vadd mn mx)) 2) (childMaxB mn mx (vscale (1/2) (vadd mn mx)) 2) (d + 1)))
        (some (ONode.new (childMinB mn mx (vscale (1/2) (vadd mn mx)) 3) (childMaxB mn mx (vscale (1/2) (vadd mn mx)) 3) (d + 1)))
        (some (ONode.new (childMinB mn mx (vscale (1/2) (vadd mn mx)) 4) (childMaxB mn mx (vscale (1/2) (vadd mn mx)) 4) (d + 1)))
        (some (ONode.new (childMinB mn mx (vscale (1/2) (vadd mn mx)) 5) (childMaxB mn mx (vscale (1/2) (vadd mn mx)) 5) (d + 1)))
        (some (ONode.new (childMinB mn mx (vscale (1/2) (vadd mn mx)) 6) (childMaxB mn mx (vscale (1/2) (vadd mn mx)) 6) (d + 1)))
        (some (ONode.new (childMinB mn mx (vscale (1/2) (vadd mn mx)) 7) (childMaxB mn mx (vscale (1/2) (vadd mn mx)) 7) (d + 1)))
        []) := rfl

/-- Inserting an in-bounds point lying inside a well-formed node's box,
with fuel at least `MAX_DEPTH + 1 - depth`, preserves well-formedness,
the node box and depth, and prepends the index to the subtree's index
multiset. -/
theorem insertPoint_wf (cloud : List Point) : ∀ f : Nat, InsertSpec cloud f := by
  intro f
  induction f with
  | zero =>
    intro n idx hwf hidx hbox hfuel
    have hdep := WF_depth_le hwf
    omega
  | succ f ihf =>
    intro n idx hwf hidx hbox hfuel
    cases hwf with
    | leaf mn mx d ps hb hd hpts =>
      simp only [minBound_mk, maxBound_mk] at hbox
      simp only [depth_mk] at hfuel
      have hC : ∀ i ∈ ps ++ [idx], i < cloud.length ∧ inBox (cloudPos cloud i) mn mx := by
        intro i hi
        rcases List.mem_append.mp hi with h | h
        · exact hpts i h
        · simp only [List.mem_singleton] at h
          subst h
          exact ⟨hidx, hbox⟩
      by_cases hover : (ps ++ [idx]).length > MAX_POINTS_PER_LEAF ∧ d < MAX_DEPTH
      · rw [insertPoint_subdivide_eq cloud f
          (ONode.mk mn mx d none none none none none none none none ps) idx
          (cloudPos cloud idx) (isLeaf_mk_none mn mx d none none none none none none none ps)
          hover]
        rw [withIndices_mk, pointIndices_mk, subdivide_eq_fold]
        have hstep : ∀ acc j,
            (WF cloud acc ∧ acc.minBound = mn ∧ acc.maxBound = mx ∧
              acc.depth = d ∧ acc.isLeaf = false) →
            (j < cloud.length ∧ inBox (cloudPos cloud j) mn mx) →
            (WF cloud ((fun (acc : ONode) (jdx : Nat) =>
          match acc.getChild (octantIndex (vscale (1/2) (vadd mn mx)) (cloudPos cloud jdx)) with
          | some k => acc.setChild
              (octantIndex (vscale (1/2) (vadd mn mx)) (cloudPos cloud jdx))
              (some (insertPoint cloud f k jdx (cloudPos cloud jdx)))
          | none => acc) acc j) ∧ ((fun (acc : ONode) (jdx : Nat) =>
          match acc.getChild (octantIndex (vscale (1/2) (vadd mn mx)) (cloudPos cloud jdx)) with
          | some k => acc.setChild
              (octantIndex (vscale (1/2) (vadd mn mx)) (cloudPos cloud jdx))
              (some (insertPoint cloud f k jdx (cloudPos cloud jdx)))
          | none => acc) acc j).minBound = mn ∧
              ((fun (acc : ONode) (jdx : Nat) =>
          match acc.getChild (octantIndex (vscale (1/2) (vadd mn mx)) (cloudPos cloud jdx)) with
          | some k => acc.setChild
              (octantIndex (vscale (1/2) (vadd mn mx)) (cloudPos cloud jdx))
              (some (insertPoint cloud f k jdx (cloudPos cloud jdx)))
          | none => acc) acc j).maxBound = mx ∧ ((fun (acc : ONode) (jdx : Nat) =>
          match acc.getChild (octantIndex (vscale (1/2) (vadd mn mx)) (cloudPos cloud jdx)) with
          | some k => acc.setChild
              (octantIndex (vscale (1/2) (vadd mn mx)) (cloudPos cloud jdx))
              (some (insertPoint cloud f k jdx (cloudPos cloud jdx)))
          | none => acc) acc j).depth = d ∧
              ((fun (acc : ONode) (jdx : Nat) =>
          match acc.getChild (octantIndex (vscale (1/2) (vadd mn mx)) (cloudPos cloud jdx)) with
          | some k => acc.setChild
              (octantIndex (vscale (1/2) (vadd mn mx)) (cloudPos cloud jdx))
              (some (insertPoint cloud f k jdx (cloudPos cloud jdx)))
          | none => acc) acc j).isLeaf = false) ∧
            (((fun (acc : ONode) (jdx : Nat) =>
          match acc.getChild (octantIndex (vscale (1/2) (vadd mn mx)) (cloudPos cloud jdx)) with
          | some k => acc.setChild
              (octantIndex (vscale (1/2) (vadd mn mx)) (cloudPos cloud jdx))
              (some (insertPoint cloud f k jdx (cloudPos cloud jdx)))
          | none => acc) acc j).allIndices : Multiset Nat) = j ::ₘ ↑acc.allIndices := by
          intro acc j hP hCj
          obtain ⟨hPw, hP2, hP3, hP4, hP5⟩ := hP
          cases hPw with
          | leaf mn2 mx2 d2 ps2 hb2 hd2 hpts2 =>
            exact absurd hP5 (by simp [isLeaf_mk_none])
          | internal mn2 mx2 d2 j0 j1 j2 j3 j4 j5 j6 j7 hb2 hd2 js0 js1 js2 js3 js4 js5 js6 js7 jw0 jw1 jw2 jw3 jw4 jw5 jw6 jw7 =>
            rw [minBound_mk] at hP2
            rw [maxBound_mk] at hP3
            rw [depth_mk] at hP4
            rw [← hP2, ← hP3] at hCj ⊢
            rw [← hP4]
            exact stepInsert_wf cloud f ihf mn2 mx2 d2 hb2 hd2 (by omega)
              j0 j1 j2 j3 j4 j5 j6 j7 js0 js1 js2 js3 js4 js5 js6 js7
              jw0 jw1 jw2 jw3 jw4 jw5 jw6 jw7 j hCj
        have hbase : WF cloud (ONode.mk mn mx d
          (some (ONode.new (childMinB mn mx (vscale (1/2) (vadd mn mx)) 0) (childMaxB mn mx (vscale (1/2) (vadd mn mx)) 0) (d + 1)))
          (some (ONode.new (childMinB mn mx (vscale (1/2) (vadd mn mx)) 1) (childMaxB mn mx (vscale (1/2) (vadd mn mx)) 1) (d + 1)))
          (some (ONode.new (childMinB mn mx (vscale (1/2) (vadd mn mx)) 2) (childMaxB mn mx (vscale (1/2) (vadd mn mx)) 2) (d + 1)))
          (some (ONode.new (childMinB mn mx (vscale (1/2) (vadd mn mx)) 3) (childMaxB mn mx (vscale (1/2) (vadd mn mx)) 3) (d + 1)))
          (some (ONode.new (childMinB mn mx (vscale (1/2) (vadd mn mx)) 4) (childMaxB mn mx (vscale (1/2) (vadd mn mx)) 4) (d + 1)))
          (some (ONode.new (childMinB mn mx (vscale (1/2) (vadd mn mx)) 5) (childMaxB mn mx (vscale (1/2) (vadd mn mx)) 5) (d + 1)))
          (some (ONode.new (childMinB mn mx (vscale (1/2) (vadd mn mx)) 6) (childMaxB mn mx (vscale (1/2) (vadd mn mx)) 6) (d + 1)))
          (some (ONode.new (childMinB mn mx (vscale (1/2) (vadd mn mx)) 7) (childMaxB mn mx (vscale (1/2) (vadd mn mx)) 7) (d + 1)))
          []) ∧ ((ONode.mk mn mx d
          (some (ONode.new (childMinB mn mx (vscale (1/2) (vadd mn mx)) 0) (childMaxB mn mx (vscale (1/2) (vadd mn mx)) 0) (d + 1)))
          (some (ONode.new (childMinB mn mx (vscale (1/2) (vadd mn mx)) 1) (childMaxB mn mx (vscale (1/2) (vadd mn mx)) 1) (d + 1)))
          (some (ONode.new (childMinB mn mx (vscale (1/2) (vadd mn mx)) 2) (childMaxB mn mx (vscale (1/2) (vadd mn mx)) 2) (d + 1)))
          (some (ONode.new (childMinB mn mx (vscale (1/2) (vadd mn mx)) 3) (childMaxB mn mx (vscale (1/2) (vadd mn mx)) 3) (d + 1)))
          (some (ONode.new (childMinB mn mx (vscale (1/2) (vadd mn mx)) 4) (childMaxB mn mx (vscale (1/2) (vadd mn mx)) 4) (d + 1)))
          (some (ONode.new (childMinB mn mx (vscale (1/2) (vadd mn mx)) 5) (childMaxB mn mx (vscale (1/2) (vadd mn mx)) 5) (d + 1)))
          (some (ONode.new (childMinB mn mx (vscale (1/2) (vadd mn mx)) 6) (childMaxB mn mx (vscale (1/2) (vadd mn mx)) 6) (d + 1)))
          (some (ONode.new (childMinB mn mx (vscale (1/2) (vadd mn mx)) 7) (childMaxB mn mx (vscale (1/2) (vadd mn mx)) 7) (d + 1)))
          []) : ONode).minBound = mn ∧
            ((ONode.mk mn mx d
          (some (ONode.new (childMinB mn mx (vscale (1/2) (vadd mn mx)) 0) (childMaxB mn mx (vscale (1/2) (vadd mn mx)) 0) (d + 1)))
          (some (ONode.new (childMinB mn mx (vscale (1/2) (vadd mn mx)) 1) (childMaxB mn mx (vscale (1/2) (vadd mn mx)) 1) (d + 1)))
          (some (ONode.new (childMinB mn mx (vscale (1/2) (vadd mn mx)) 2) (childMaxB mn mx (vscale (1/2) (vadd mn mx)) 2) (d + 1)))
          (some (ONode.new (childMinB mn mx (vscale (1/2) (vadd mn mx)) 3) (childMaxB mn mx (vscale (1/2) (vadd mn mx)) 3) (d + 1)))
          (some (ONode.new (childMinB mn mx (vscale (1/2) (vadd mn mx)) 4) (childMaxB mn mx (vscale (1/2) (vadd mn mx)) 4) (d + 1)))
          (some (ONode.new (childMinB mn mx (vscale (1/2) (vadd mn mx)) 5) (childMaxB mn mx (vscale (1/2) (vadd mn mx)) 5) (d + 1)))
          (some (ONode.new (childMinB mn mx (vscale (1/2) (vadd mn mx)) 6) (childMaxB mn mx (vscale (1/2) (vadd mn mx)) 6) (d + 1)))
          (some (ONode.new (childMinB mn mx (vscale (1/2) (vadd mn mx)) 7) (childMaxB mn mx (vscale (1/2) (vadd mn mx)) 7) (d + 1)))
          []) : ONode).maxBound = mx ∧ ((ONode.mk mn mx d
          (some (ONode.new (childMinB mn mx (vscale (1/2) (vadd mn mx)) 0) (childMaxB mn mx (vscale (1/2) (vadd mn mx)) 0) (d + 1)))
          (some (ONode.new (childMinB mn mx (vscale (1/2) (vadd mn mx)) 1) (childMaxB mn mx (vscale (1/2) (vadd mn mx)) 1) (d + 1)))
          (some (ONode.new (childMinB mn mx (vscale (1/2) (vadd mn mx)) 2) (childMaxB mn mx (vscale (1/2) (vadd mn mx)) 2) (d + 1)))
          (some (ONode.new (childMinB mn mx (vscale (1/2) (vadd mn mx)) 3) (childMaxB mn mx (vscale (1/2) (vadd mn mx)) 3) (d + 1)))
          (some (ONode.new (childMinB mn mx (vscale (1/2) (vadd mn mx)) 4) (childMaxB mn mx (vscale (1/2) (vadd mn mx)) 4) (d + 1)))
          (some (ONode.new (childMinB mn mx (vscale (1/2) (vadd mn mx)) 5) (childMaxB mn mx (vscale (1/2) (vadd mn mx)) 5) (d + 1)))
          (some (ONode.new (childMinB mn mx (vscale (1/2) (vadd mn mx)) 6) (childMaxB mn mx (vscale (1/2) (vadd mn mx)) 6) (d + 1)))
          (some (ONode.new (childMinB mn mx (vscale (1/2) (vadd mn mx)) 7) (childMaxB mn mx (vscale (1/2) (vadd mn mx)) 7) (d + 1)))
          []) : ONode).depth = d ∧
            ((ONode.mk mn mx d
          (some (ONode.new (childMinB mn mx (vscale (1/2) (vadd mn mx)) 0) (childMaxB mn mx (vscale (1/2) (vadd mn mx)) 0) (d + 1)))
          (some (ONode.new (childMinB mn mx (vscale (1/2) (vadd mn mx)) 1) (childMaxB mn mx (vscale (1/2) (vadd mn mx)) 1) (d + 1)))
          (some (ONode.new (childMinB mn mx (vscale (1/2) (vadd mn mx)) 2) (childMaxB mn mx (vscale (1/2) (vadd mn mx)) 2) (d + 1)))
          (some (ONode.new (childMinB mn mx (vscale (1/2) (vadd mn mx)) 3) (childMaxB mn mx (vscale (1/2) (vadd mn mx)) 3) (d + 1)))
          (some (ONode.new (childMinB mn mx (vscale (1/2) (vadd mn mx)) 4) (childMaxB mn mx (vscale (1/2) (vadd mn mx)) 4) (d + 1)))
          (some (ONode.new (childMinB mn mx (vscale (1/2) (vadd mn mx)) 5) (childMaxB mn mx (vscale (1/2) (vadd mn mx)) 5) (d + 1)))
          (some (ONode.new (childMinB mn mx (vscale (1/2) (vadd mn mx)) 6) (childMaxB mn mx (vscale (1/2) (vadd mn mx)) 6) (d + 1)))
          (some (ONode.new (childMinB mn mx (vscale (1/2) (vadd mn mx)) 7) (childMaxB mn mx (vscale (1/2) (vadd mn mx)) 7) (d + 1)))
          []) : ONode).isLeaf = false := by
          refine ⟨WF.internal mn mx d _ _ _ _ _ _ _ _ hb hover.2
            ⟨rfl, rfl, rfl⟩ ⟨rfl, rfl, rfl⟩ ⟨rfl, rfl, rfl⟩ ⟨rfl, rfl, rfl⟩
            ⟨rfl, rfl, rfl⟩ ⟨rfl, rfl, rfl⟩ ⟨rfl, rfl, rfl⟩ ⟨rfl, rfl, rfl⟩
            ?_ ?_ ?_ ?_ ?_ ?_ ?_ ?_, rfl, rfl, rfl, rfl⟩ <;>
          exact WF.leaf _ _ _ _ ((childBox_sub hb _).1) (by omega)
            (fun i hi => absurd hi (List.not_mem_nil i))
        obtain ⟨⟨hWfin, hmnf, hmxf, hdf, hlf⟩, hMfin⟩ :=
          routeFold (fun (acc : ONode) (jdx : Nat) =>
          match acc.getChild (octantIndex (vscale (1/2) (vadd mn mx)) (cloudPos cloud jdx)) with
          | some k => acc.setChild
              (octantIndex (vscale (1/2) (vadd mn mx)) (cloudPos cloud jdx))
              (some (insertPoint cloud f k jdx (cloudPos cloud jdx)))
          | none => acc)
            (fun acc => WF cloud acc ∧ acc.minBound = mn ∧ acc.maxBound = mx ∧
              acc.depth = d ∧ acc.isLeaf = false)
            (fun j => j < cloud.length ∧ inBox (cloudPos cloud j) mn mx)
            hstep (ps ++ [idx]) (ONode.mk mn mx d
          (some (ONode.new (childMinB mn mx (vscale (1/2) (vadd mn mx)) 0) (childMaxB mn mx (vscale (1/2) (vadd mn mx)) 0) (d + 1)))
          (some (ONode.new (childMinB mn mx (vscale (1/2) (vadd mn mx)) 1) (childMaxB mn mx (vscale (1/2) (vadd mn mx)) 1) (d + 1)))
          (some (ONode.new (childMinB mn mx (vscale (1/2) (vadd mn mx)) 2) (childMaxB mn mx (vscale (1/2) (vadd mn mx)) 2) (d + 1)))
          (some (ONode.new (childMinB mn mx (vscale (1/2) (vadd mn mx)) 3) (childMaxB mn mx (vscale (1/2) (vadd mn mx)) 3) (d + 1)))
          (some (ONode.new (childMinB mn mx (vscale (1/2) (vadd mn mx)) 4) (childMaxB mn mx (vscale (1/2) (vadd mn mx)) 4) (d + 1)))
          (some (ONode.new (childMinB mn mx (vscale (1/2) (vadd mn mx)) 5) (childMaxB mn mx (vscale (1/2) (vadd mn mx)) 5) (d + 1)))
          (some (ONode.new (childMinB mn mx (vscale (1/2) (vadd mn mx)) 6) (childMaxB mn mx (vscale (1/2) (vadd mn mx)) 6) (d + 1)))
          (some (ONode.new (childMinB mn mx (vscale (1/2) (vadd mn mx)) 7) (childMaxB mn mx (vscale (1/2) (vadd mn mx)) 7) (d + 1)))
          []) hC hbase
        refine ⟨hWfin, by rw [hmnf, minBound_mk], by rw [hmxf, maxBound_mk],
          by rw [hdf, depth_mk], ?_⟩
        rw [hMfin, allIndices_leaf]
        have hbe : ((ONode.mk mn mx d
          (some (ONode.new (childMinB mn mx (vscale (1/2) (vadd mn mx)) 0) (childMaxB mn mx (vscale (1/2) (vadd mn mx)) 0) (d + 1)))
          (some (ONode.new (childMinB mn mx (vscale (1/2) (vadd mn mx)) 1) (childMaxB mn mx (vscale (1/2) (vadd mn mx)) 1) (d + 1)))
          (some (ONode.new (childMinB mn mx (vscale (1/2) (vadd mn mx)) 2) (childMaxB mn mx (vscale (1/2) (vadd mn mx)) 2) (d + 1)))
          (some (ONode.new (childMinB mn mx (vscale (1/2) (vadd mn mx)) 3) (childMaxB mn mx (vscale (1/2) (vadd mn mx)) 3) (d + 1)))
          (some (ONode.new (childMinB mn mx (vscale (1/2) (vadd mn mx)) 4) (childMaxB mn mx (vscale (1/2) (vadd mn mx)) 4) (d + 1)))
          (some (ONode.new (childMinB mn mx (vscale (1/2) (vadd mn mx)) 5) (childMaxB mn mx (vscale (1/2) (vadd mn mx)) 5) (d + 1)))
          (some (ONode.new (childMinB mn mx (vscale (1/2) (vadd mn mx)) 6) (childMaxB mn mx (vscale (1/2) (vadd mn mx)) 6) (d + 1)))
          (some (ONode.new (childMinB mn mx (vscale (1/2) (vadd mn mx)) 7) (childMaxB mn mx (vscale (1/2) (vadd mn mx)) 7) (d + 1)))
          []) : ONode).allIndices = [] := by
          simp [allIndices_internal, ONode.new, allIndices_leaf]
        rw [hbe]
        simp only [← Multiset.coe_add, ← Multiset.singleton_add]
        abel
      · rw [insertPoint_leaf_plain cloud f mn mx d ps idx hover]
        refine ⟨WF.leaf mn mx d (ps ++ [idx]) hb hd hC,
          by rw [minBound_mk, minBound_mk], by rw [maxBound_mk, maxBound_mk],
          by rw [depth_mk, depth_mk], ?_⟩
        rw [allIndices_leaf, allIndices_leaf]
        simp only [← Multiset.coe_add, ← Multiset.singleton_add]
        abel
    | internal mn mx d k0 k1 k2 k3 k4 k5 k6 k7 hb hd hs0 hs1 hs2 hs3 hs4 hs5 hs6 hs7 hw0 hw1 hw2 hw3 hw4 hw5 hw6 hw7 =>
      simp only [minBound_mk, maxBound_mk] at hbox
      simp only [depth_mk] at hfuel
      rw [insertPoint_internal_eq]
      simp only [minBound_mk, maxBound_mk, depth_mk]
      have hres := stepInsert_wf cloud f ihf mn mx d hb hd (by omega)
        k0 k1 k2 k3 k4 k5 k6 k7 hs0 hs1 hs2 hs3 hs4 hs5 hs6 hs7
        hw0 hw1 hw2 hw3 hw4 hw5 hw6 hw7 idx ⟨hidx, hbox⟩
      exact ⟨hres.1.1, hres.1.2.1, hres.1.2.2.1, hres.1.2.2.2.1, hres.2⟩

theorem vle_refl (a : Vec3) : vle a a := ⟨le_refl _, le_refl _, le_refl _⟩

theorem vle_trans {a b c : Vec3} (h1 : vle a b) (h2 : vle b c) : vle a c :=
  ⟨le_trans h1.1 h2.1, le_trans h1.2.1 h2.2.1, le_trans h1.2.2 h2.2.2⟩

theorem vle_vmin_left (a b : Vec3) : vle (vmin a b) a :=
  ⟨min_le_left _ _, min_le_left _ _, min_le_left _ _⟩

theorem vle_vmin_right (a b : Vec3) : vle (vmin a b) b :=
  ⟨min_le_right _ _, min_le_right _ _, min_le_right _ _⟩

theorem vle_vmax_left (a b : Vec3) : vle a (vmax a b) :=
  ⟨le_max_left _ _, le_max_left _ _, le_max_left _ _⟩

theorem vle_vmax_right (a b : Vec3) : vle b (vmax a b) :=
  ⟨le_max_right _ _, le_max_right _ _, le_max_right _ _⟩

/-- The running minimum fold is below its seed and every element. -/
theorem foldl_vmin_le (l : List Point) :
    ∀ a : Vec3, vle (l.foldl (fun a q => vmin a q.position) a) a ∧
      ∀ p ∈ l, vle (l.foldl (fun a q => vmin a q.position) a) p.position := by
  induction l with
  | nil => intro a; exact ⟨vle_refl a, by simp⟩
  | cons q t ih =>
    intro a
    obtain ⟨h1, h2⟩ := ih (vmin a q.position)
    refine ⟨vle_trans h1 (vle_vmin_left _ _), ?_⟩
    intro p hp
    rcases List.mem_cons.mp hp with h | h
    · subst h
      exact vle_trans h1 (vle_vmin_right _ _)
    · exact h2 p h

/-- The running maximum fold is above its seed and every element. -/
theorem foldl_vmax_ge (l : List Point) :
    ∀ a : Vec3, vle a (l.foldl (fun a q => vmax a q.position) a) ∧
      ∀ p ∈ l, vle p.position (l.foldl (fun a q => vmax a q.position) a) := by
  induction l with
  | nil => intro a; exact ⟨vle_refl a, by simp⟩
  | cons q t ih =>
    intro a
    obtain ⟨h1, h2⟩ := ih (vmax a q.position)
    refine ⟨vle_trans (vle_vmax_left _ _) h1, ?_⟩
    intro p hp
    rcases List.mem_cons.mp hp with h | h
    · subst h
      exact vle_trans (vle_vmax_right _ _) h1
    · exact h2 p h

/-- Every point of a cloud lies inside the cloud's bounding box. -/
theorem cloud_bounds (cloud : List Point) (i : Nat) (hi : i < cloud.length) :
    inBox (cloudPos cloud i) (cloudMinBound cloud) (cloudMaxBound cloud) := by
  cases cloud with
  | nil => simp at hi
  | cons p ps =>
    have hmem : (p :: ps).getD i default ∈ p :: ps := by
      rw [List.getD_eq_getElem (p :: ps) default hi]
      exact List.getElem_mem hi
    have hmin : vle (cloudMinBound (p :: ps)) ((p :: ps).getD i default).position := by
      rcases List.mem_cons.mp hmem with h | h
      · rw [h]
        exact (foldl_vmin_le ps p.position).1
      · exact (foldl_vmin_le ps p.position).2 _ h
    have hmax : vle ((p :: ps).getD i default).position (cloudMaxBound (p :: ps)) := by
      rcases List.mem_cons.mp hmem with h | h
      · rw [h]
        exact (foldl_vmax_ge ps p.position).1
      · exact (foldl_vmax_ge ps p.position).2 _ h
    exact ⟨hmin.1, hmax.1, hmin.2.1, hmax.2.1, hmin.2.2, hmax.2.2⟩

/-- A non-empty cloud's bounding box is non-empty. -/
theorem cloud_bounds_le (cloud : List Point) (hne : cloud ≠ []) :
    vle (cloudMinBound cloud) (cloudMaxBound cloud) := by
  cases cloud with
  | nil => exact absurd rfl hne
  | cons p ps =>
    have h1 := (foldl_vmin_le ps p.position).1
    have h2 := (foldl_vmax_ge ps p.position).1
    exact vle_trans h1 h2

/-- `build` produces a well-formed root spanning the cloud bounds whose
index multiset is exactly `{0, ..., n-1}`. -/
theorem build_wf (cloud : List Point) (r : ONode) (h : build cloud = some r) :
    WF cloud r ∧ (r.allIndices : Multiset Nat) = ↑(List.range cloud.length) ∧
    r.minBound = cloudMinBound cloud ∧ r.maxBound = cloudMaxBound cloud ∧
    r.depth = 0 := by
  rw [build, buildWithFuel] at h
  by_cases hne : cloud.isEmpty
  · rw [if_pos hne] at h
    exact absurd h (by simp)
  · rw [if_neg hne] at h
    have hne' : cloud ≠ [] := by
      intro hcontra
      rw [hcontra] at hne
      exact hne rfl
    have key : ∀ k : Nat, k ≤ cloud.length →
        WF cloud ((List.range k).foldl
          (fun r i => insertPoint cloud (MAX_DEPTH + 1) r i (cloudPos cloud i))
          (ONode.new (cloudMinBound cloud) (cloudMaxBound cloud) 0)) ∧
        (((List.range k).foldl
          (fun r i => insertPoint cloud (MAX_DEPTH + 1) r i (cloudPos cloud i))
          (ONode.new (cloudMinBound cloud) (cloudMaxBound cloud) 0)).allIndices : Multiset Nat) =
          ↑(List.range k) ∧
        ((List.range k).foldl
          (fun r i => insertPoint cloud (MAX_DEPTH + 1) r i (cloudPos cloud i))
          (ONode.new (cloudMinBound cloud) (cloudMaxBound cloud) 0)).minBound =
          cloudMinBound cloud ∧
        ((List.range k).foldl
          (fun r i => insertPoint cloud (MAX_DEPTH + 1) r i (cloudPos cloud i))
          (ONode.new (cloudMinBound cloud) (cloudMaxBound cloud) 0)).maxBound =
          cloudMaxBound cloud ∧
        ((List.range k).foldl
          (fun r i => insertPoint cloud (MAX_DEPTH + 1) r i (cloudPos cloud i))
          (ONode.new (cloudMinBound cloud) (cloudMaxBound cloud) 0)).depth = 0 := by
      intro k
      induction k with
      | zero =>
        intro _
        refine ⟨WF.leaf _ _ _ _ (cloud_bounds_le cloud hne') (by simp [MAX_DEPTH])
          (fun i hi => absurd hi (List.not_mem_nil i)), ?_, rfl, rfl, rfl⟩
        simp [ONode.new, allIndices_leaf]
      | succ k ihk =>
        intro hk
        obtain ⟨hW, hM, hmn, hmx, hdp⟩ := ihk (by omega)
        rw [List.range_succ, List.foldl_append, List.foldl_cons, List.foldl_nil]
        have hbox : inBox (cloudPos cloud k)
            ((List.range k).foldl
              (fun r i => insertPoint cloud (MAX_DEPTH + 1) r i (cloudPos cloud i))
              (ONode.new (cloudMinBound cloud) (cloudMaxBound cloud) 0)).minBound
            ((List.range k).foldl
              (fun r i => insertPoint cloud (MAX_DEPTH + 1) r i (cloudPos cloud i))
              (ONode.new (cloudMinBound cloud) (cloudMaxBound cloud) 0)).maxBound := by
          rw [hmn, hmx]
          exact cloud_bounds cloud k (by omega)
        obtain ⟨hW2, hmn2, hmx2, hdp2, hM2⟩ :=
          insertPoint_wf cloud (MAX_DEPTH + 1) _ k hW (by omega) hbox (by omega)
        refine ⟨hW2, ?_, by rw [hmn2, hmn], by rw [hmx2, hmx], by rw [hdp2, hdp]⟩
        rw [hM2, hM]
        simp only [← Multiset.coe_add, ← Multiset.singleton_add, Multiset.coe_singleton]
        abel
    obtain ⟨hW, hM, hmn, hmx, hdp⟩ := key cloud.length (le_refl _)
    cases h
    exact ⟨hW, hM, hmn, hmx, hdp⟩

/-- Every index stored under a well-formed node is an in-bounds cloud
index whose position lies inside the node box. -/
theorem allIndices_inBox {cloud : List Point} {n : ONode} (h : WF cloud n) :
    ∀ i ∈ n.allIndices, i < cloud.length ∧
      inBox (cloudPos cloud i) n.minBound n.maxBound := by
  induction h with
  | leaf mn mx d ps hb hd hpts =>
    intro i hi
    rw [allIndices_leaf] at hi
    simpa [minBound_mk, maxBound_mk] using hpts i hi
  | internal mn mx d k0 k1 k2 k3 k4 k5 k6 k7 hb hd hs0 hs1 hs2 hs3 hs4 hs5 hs6 hs7 hw0 hw1 hw2 hw3 hw4 hw5 hw6 hw7 ih0 ih1 ih2 ih3 ih4 ih5 ih6 ih7 =>
    intro i hi
    rw [allIndices_internal] at hi
    simp only [List.nil_append, List.mem_append] at hi
    simp only [minBound_mk, maxBound_mk]
    rcases hi with ((((((h0 | h1) | h2) | h3) | h4) | h5) | h6) | h7
    · obtain ⟨hl, hbx⟩ := ih0 i h0
      rw [hs0.1, hs0.2.1] at hbx
      exact ⟨hl, (childBox_sub hb 0).2 _ hbx⟩
    · obtain ⟨hl, hbx⟩ := ih1 i h1
      rw [hs1.1, hs1.2.1] at hbx
      exact ⟨hl, (childBox_sub hb 1).2 _ hbx⟩
    · obtain ⟨hl, hbx⟩ := ih2 i h2
      rw [hs2.1, hs2.2.1] at hbx
      exact ⟨hl, (childBox_sub hb 2).2 _ hbx⟩
    · obtain ⟨hl, hbx⟩ := ih3 i h3
      rw [hs3.1, hs3.2.1] at hbx
      exact ⟨hl, (childBox_sub hb 3).2 _ hbx⟩
    · obtain ⟨hl, hbx⟩ := ih4 i h4
      rw [hs4.1, hs4.2.1] at hbx
      exact ⟨hl, (childBox_sub hb 4).2 _ hbx⟩
    · obtain ⟨hl, hbx⟩ := ih5 i h5
      rw [hs5.1, hs5.2.1] at hbx
      exact ⟨hl, (childBox_sub hb 5).2 _ hbx⟩
    · obtain ⟨hl, hbx⟩ := ih6 i h6
      rw [hs6.1, hs6.2.1] at hbx
      exact ⟨hl, (childBox_sub hb 6).2 _ hbx⟩
    · obtain ⟨hl, hbx⟩ := ih7 i h7
      rw [hs7.1, hs7.2.1] at hbx
      exact ⟨hl, (childBox_sub hb 7).2 _ hbx⟩

/-- Inside a box, the signed distance to a plane is at most the signed
distance of the box's most-positive corner for that plane. -/
theorem distance_le_pVertex {mn mx p : Vec3} (hp : inBox p mn mx) (pl : Vec4) :
    distanceToPlane p pl ≤ distanceToPlane (pVertex mn mx pl) pl := by
  obtain ⟨h1, h2, h3, h4, h5, h6⟩ := hp
  unfold distanceToPlane pVertex
  have hx : pl.x * p.x ≤ pl.x * (if pl.x > 0 then mx.x else mn.x) := by
    split_ifs with h
    · exact mul_le_mul_of_nonneg_left h2 (le_of_lt h)
    · exact mul_le_mul_of_nonpos_left h1 (not_lt.mp h)
  have hy : pl.y * p.y ≤ pl.y * (if pl.y > 0 then mx.y else mn.y) := by
    split_ifs with h
    · exact mul_le_mul_of_nonneg_left h4 (le_of_lt h)
    · exact mul_le_mul_of_nonpos_left h3 (not_lt.mp h)
  have hz : pl.z * p.z ≤ pl.z * (if pl.z > 0 then mx.z else mn.z) := by
    split_ifs with h
    · exact mul_le_mul_of_nonneg_left h6 (le_of_lt h)
    · exact mul_le_mul_of_nonpos_left h5 (not_lt.mp h)
  simp only
  linarith

/-- The node-level frustum rejection is conservative: if the test fails,
every point of the node box fails the exact per-point test. -/
theorem frustum_prune {mn mx p : Vec3} {fr : List Vec4}
    (hn : fr.all (fun pl => ¬ distanceToPlane (pVertex mn mx pl) pl < 0) = false)
    (hp : inBox p mn mx) :
    isPointInFrustum p fr = false := by
  rw [List.all_eq_false] at hn
  obtain ⟨pl, hmem, hpl⟩ := hn
  have hneg : distanceToPlane (pVertex mn mx pl) pl < 0 := by
    by_contra hcon
    simp [hcon] at hpl
  unfold isPointInFrustum
  rw [List.all_eq_false]
  refine ⟨pl, hmem, ?_⟩
  have hle := distance_le_pVertex hp pl
  have hlt : distanceToPlane p pl < 0 := lt_of_le_of_lt hle hneg
  simp [hlt]

/-- AABB pruning is conservative. -/
theorem box_prune {nmn nmx qmn qmx p : Vec3}
    (hd : boxesDisjoint nmn nmx qmn qmx) (hp : inBox p nmn nmx) :
    ¬ inBox p qmn qmx := by
  intro hq
  obtain ⟨a1, a2, a3, a4, a5, a6⟩ := hp
  obtain ⟨b1, b2, b3, b4, b5, b6⟩ := hq
  rcases hd with h | h | h | h | h | h <;> linarith

theorem distSq_comm (a b : Vec3) : distSq a b = distSq b a := by
  unfold distSq vdot vsub
  ring_nf

/-- Per-axis clamp optimality. -/
theorem sq_clamp_le (c lo hi q : ℚ) (h1 : lo ≤ hi) (h2 : lo ≤ q) (h3 : q ≤ hi) :
    (c - min (max c lo) hi) * (c - min (max c lo) hi) ≤ (c - q) * (c - q) := by
  rcases le_or_lt c lo with hc | hc
  · rw [max_eq_right hc, min_eq_left h1]
    nlinarith
  · rw [max_eq_left (le_of_lt hc)]
    rcases le_or_lt c hi with hc2 | hc2
    · rw [min_eq_left hc2]
      nlinarith
    · rw [min_eq_right (le_of_lt hc2)]
      nlinarith

/-- The clamp of the query center into a non-empty box is at least as
close to the center as any point of the box. -/
theorem distSq_clamp_le {mn mx c p : Vec3} (hb : vle mn mx) (hp : inBox p mn mx) :
    distSq c (vclamp c mn mx) ≤ distSq c p := by
  obtain ⟨b1, b2, b3⟩ := hb
  obtain ⟨h1, h2, h3, h4, h5, h6⟩ := hp
  unfold distSq vdot vsub vclamp vmin vmax
  simp only
  have hx := sq_clamp_le c.x mn.x mx.x p.x b1 h1 h2
  have hy := sq_clamp_le c.y mn.y mx.y p.y b2 h3 h4
  have hz := sq_clamp_le c.z mn.z mx.z p.z b3 h5 h6
  linarith

theorem queryBoxRec_leaf (cloud : List Point) (qmn qmx mn mx : Vec3) (d : Nat)
    (ps : List Nat) :
    queryBoxRec cloud qmn qmx
        (.mk mn mx d none none none none none none none none ps) =
      if boxesDisjoint mn mx qmn qmx then []
      else ps.filter (fun idx => inBox (cloudPos cloud idx) qmn qmx) := rfl

theorem queryBoxRec_internal (cloud : List Point) (qmn qmx mn mx : Vec3) (d : Nat)
    (k0 k1 k2 k3 k4 k5 k6 k7 : ONode) (ps : List Nat) :
    queryBoxRec cloud qmn qmx
        (.mk mn mx d (some k0) (some k1) (some k2) (some k3) (some k4) (some k5)
          (some k6) (some k7) ps) =
      if boxesDisjoint mn mx qmn qmx then []
      else
        queryBoxRec cloud qmn qmx k0 ++ queryBoxRec cloud qmn qmx k1 ++
        queryBoxRec cloud qmn qmx k2 ++ queryBoxRec cloud qmn qmx k3 ++
        queryBoxRec cloud qmn qmx k4 ++ queryBoxRec cloud qmn qmx k5 ++
        queryBoxRec cloud qmn qmx k6 ++ queryBoxRec cloud qmn qmx k7 := rfl

/-- On a well-formed subtree, the box query returns exactly the stored
indices whose positions pass the inclusive componentwise box test, in
stored (depth-first, slot-order) order. -/
theorem queryBoxRec_eq_filter {cloud : List Point} (qmn qmx : Vec3)
    {n : ONode} (h : WF cloud n) :
    queryBoxRec cloud qmn qmx n =
      n.allIndices.filter (fun i => inBox (cloudPos cloud i) qmn qmx) := by
  induction h with
  | leaf mn mx d ps hb hd hpts =>
    rw [queryBoxRec_leaf, allIndices_leaf]
    by_cases hdis : boxesDisjoint mn mx qmn qmx
    · rw [if_pos hdis]
      symm
      rw [List.filter_eq_nil_iff]
      intro i hi
      simp only [decide_eq_true_eq]
      exact box_prune hdis (hpts i hi).2
    · rw [if_neg hdis]
  | internal mn mx d k0 k1 k2 k3 k4 k5 k6 k7 hb hd hs0 hs1 hs2 hs3 hs4 hs5 hs6 hs7 hw0 hw1 hw2 hw3 hw4 hw5 hw6 hw7 ih0 ih1 ih2 ih3 ih4 ih5 ih6 ih7 =>
    rw [queryBoxRec_internal, allIndices_internal]
    by_cases hdis : boxesDisjoint mn mx qmn qmx
    · rw [if_pos hdis]
      symm
      rw [List.filter_eq_nil_iff]
      intro i hi
      have hWF : WF cloud (ONode.mk mn mx d (some k0) (some k1) (some k2)
          (some k3) (some k4) (some k5) (some k6) (some k7) []) :=
        WF.internal mn mx d k0 k1 k2 k3 k4 k5 k6 k7 hb hd hs0 hs1 hs2 hs3
          hs4 hs5 hs6 hs7 hw0 hw1 hw2 hw3 hw4 hw5 hw6 hw7
      have hmem : i ∈ (ONode.mk mn mx d (some k0) (some k1) (some k2)
          (some k3) (some k4) (some k5) (some k6) (some k7) []).allIndices := by
        rw [allIndices_internal]; exact hi
      have hbx := (allIndices_inBox hWF i hmem).2
      simp only [minBound_mk, maxBound_mk] at hbx
      simp only [decide_eq_true_eq]
      exact box_prune hdis hbx
    · rw [if_neg hdis, ih0, ih1, ih2, ih3, ih4, ih5, ih6, ih7]
      simp [List.filter_append]

theorem queryFrustumRec_leaf (cloud : List Point) (fr : List Vec4) (mn mx : Vec3)
    (d : Nat) (ps : List Nat) :
    queryFrustumRec cloud fr
        (.mk mn mx d none none none none none none none none ps) =
      if ¬ isNodeInFrustum
          (.mk mn mx d none none none none none none none none ps) fr then []
      else ps.filter (fun idx => isPointInFrustum (cloudPos cloud idx) fr) := rfl

theorem queryFrustumRec_internal (cloud : List Point) (fr : List Vec4)
    (mn mx : Vec3) (d : Nat) (k0 k1 k2 k3 k4 k5 k6 k7 : ONode) (ps : List Nat) :
    queryFrustumRec cloud fr
        (.mk mn mx d (some k0) (some k1) (some k2) (some k3) (some k4) (some k5)
          (some k6) (some k7) ps) =
      if ¬ isNodeInFrustum
          (.mk mn mx d (some k0) (some k1) (some k2) (some k3) (some k4) (some k5)
            (some k6) (some k7) ps) fr then []
      else
        queryFrustumRec cloud fr k0 ++ queryFrustumRec cloud fr k1 ++
        queryFrustumRec cloud fr k2 ++ queryFrustumRec cloud fr k3 ++
        queryFrustumRec cloud fr k4 ++ queryFrustumRec cloud fr k5 ++
        queryFrustumRec cloud fr k6 ++ queryFrustumRec cloud fr k7 := rfl

/-- On a well-formed subtree, the frustum query returns exactly the
stored indices whose positions pass the exact per-point plane tests, in
stored order. -/
theorem queryFrustumRec_eq_filter {cloud : List Point} (fr : List Vec4)
    {n : ONode} (h : WF cloud n) :
    queryFrustumRec cloud fr n =
      n.allIndices.filter (fun i => isPointInFrustum (cloudPos cloud i) fr) := by
  induction h with
  | leaf mn mx d ps hb hd hpts =>
    rw [queryFrustumRec_leaf, allIndices_leaf]
    by_cases hin : isNodeInFrustum
        (.mk mn mx d none none none none none none none none ps) fr = true
    · rw [if_neg (not_not_intro hin)]
    · rw [if_pos hin]
      rw [Bool.not_eq_true] at hin
      unfold isNodeInFrustum at hin
      simp only [minBound_mk, maxBound_mk] at hin
      symm
      rw [List.filter_eq_nil_iff]
      intro i hi
      have hfalse := frustum_prune hin (hpts i hi).2
      simp [hfalse]
  | internal mn mx d k0 k1 k2 k3 k4 k5 k6 k7 hb hd hs0 hs1 hs2 hs3 hs4 hs5 hs6 hs7 hw0 hw1 hw2 hw3 hw4 hw5 hw6 hw7 ih0 ih1 ih2 ih3 ih4 ih5 ih6 ih7 =>
    rw [queryFrustumRec_internal, allIndices_internal]
    by_cases hin : isNodeInFrustum
        (.mk mn mx d (some k0) (some k1) (some k2) (some k3) (some k4) (some k5)
          (some k6) (some k7) []) fr = true
    · rw [if_neg (not_not_intro hin), ih0, ih1, ih2, ih3, ih4, ih5, ih6, ih7]
      simp [List.filter_append]
    · rw [if_pos hin]
      rw [Bool.not_eq_true] at hin
      unfold isNodeInFrustum at hin
      simp only [minBound_mk, maxBound_mk] at hin
      symm
      rw [List.filter_eq_nil_iff]
      intro i hi
      have hWF : WF cloud (ONode.mk mn mx d (some k0) (some k1) (some k2)
          (some k3) (some k4) (some k5) (some k6) (some k7) []) :=
        WF.internal mn mx d k0 k1 k2 k3 k4 k5 k6 k7 hb hd hs0 hs1 hs2 hs3
          hs4 hs5 hs6 hs7 hw0 hw1 hw2 hw3 hw4 hw5 hw6 hw7
      have hmem : i ∈ (ONode.mk mn mx d (some k0) (some k1) (some k2)
          (some k3) (some k4) (some k5) (some k6) (some k7) []).allIndices := by
        rw [allIndices_internal]; exact hi
      have hbx := (allIndices_inBox hWF i hmem).2
      simp only [minBound_mk, maxBound_mk] at hbx
      have hfalse := frustum_prune hin hbx
      simp [hfalse]

theorem queryRadiusRec_leaf (cloud : List Point) (c : Vec3) (r : ℚ) (mn mx : Vec3)
    (d : Nat) (ps : List Nat) :
    queryRadiusRec cloud c r
        (.mk mn mx d none none none none none none none none ps) =
      if distSq c (vclamp c mn mx) > r * r then []
      else ps.filter (fun idx => ¬ distSq (cloudPos cloud idx) c > r * r) := rfl

theorem queryRadiusRec_internal (cloud : List Point) (c : Vec3) (r : ℚ)
    (mn mx : Vec3) (d : Nat) (k0 k1 k2 k3 k4 k5 k6 k7 : ONode) (ps : List Nat) :
    queryRadiusRec cloud c r
        (.mk mn mx d (some k0) (some k1) (some k2) (some k3) (some k4) (some k5)
          (some k6) (some k7) ps) =
      if distSq c (vclamp c mn mx) > r * r then []
      else
        queryRadiusRec cloud c r k0 ++ queryRadiusRec cloud c r k1 ++
        queryRadiusRec cloud c r k2 ++ queryRadiusRec cloud c r k3 ++
        queryRadiusRec cloud c r k4 ++ queryRadiusRec cloud c r k5 ++
        queryRadiusRec cloud c r k6 ++ queryRadiusRec cloud c r k7 := rfl

/-- On a well-formed subtree, the radius query returns exactly the stored
indices whose positions lie within squared distance `radius²` of the
center, in stored order. -/
theorem queryRadiusRec_eq_filter {cloud : List Point} (c : Vec3) (r : ℚ)
    {n : ONode} (h : WF cloud n) :
    queryRadiusRec cloud c r n =
      n.allIndices.filter (fun i => ¬ distSq (cloudPos cloud i) c > r * r) := by
  induction h with
  | leaf mn mx d ps hb hd hpts =>
    rw [queryRadiusRec_leaf, allIndices_leaf]
    by_cases hdis : distSq c (vclamp c mn mx) > r * r
    · rw [if_pos hdis]
      symm
      rw [List.filter_eq_nil_iff]
      intro i hi
      simp only [decide_eq_true_eq, not_not]
      rw [distSq_comm]
      exact lt_of_lt_of_le hdis (distSq_clamp_le hb (hpts i hi).2)
    · rw [if_neg hdis]
  | internal mn mx d k0 k1 k2 k3 k4 k5 k6 k7 hb hd hs0 hs1 hs2 hs3 hs4 hs5 hs6 hs7 hw0 hw1 hw2 hw3 hw4 hw5 hw6 hw7 ih0 ih1 ih2 ih3 ih4 ih5 ih6 ih7 =>
    rw [queryRadiusRec_internal, allIndices_internal]
    by_cases hdis : distSq c (vclamp c mn mx) > r * r
    · rw [if_pos hdis]
      symm
      rw [List.filter_eq_nil_iff]
      intro i hi
      have hWF : WF cloud (ONode.mk mn mx d (some k0) (some k1) (some k2)
          (some k3) (some k4) (some k5) (some k6) (some k7) []) :=
        WF.internal mn mx d k0 k1 k2 k3 k4 k5 k6 k7 hb hd hs0 hs1 hs2 hs3
          hs4 hs5 hs6 hs7 hw0 hw1 hw2 hw3 hw4 hw5 hw6 hw7
      have hmem : i ∈ (ONode.mk mn mx d (some k0) (some k1) (some k2)
          (some k3) (some k4) (some k5) (some k6) (some k7) []).allIndices := by
        rw [allIndices_internal]; exact hi
      have hbx := (allIndices_inBox hWF i hmem).2
      simp only [minBound_mk, maxBound_mk] at hbx
      simp only [decide_eq_true_eq, not_not]
      rw [distSq_comm]
      exact lt_of_lt_of_le hdis (distSq_clamp_le hb hbx)
    · rw [if_neg hdis, ih0, ih1, ih2, ih3, ih4, ih5, ih6, ih7]
      simp [List.filter_append]

theorem queryLODRec_leaf_mk (cloud : List Point) (viewPos : Vec3) (fr : List Vec4)
    (baseDist : ℚ) (mn mx : Vec3) (d : Nat) (pts : List Nat) :
    queryLODRec cloud viewPos fr baseDist
        (.mk mn mx d none none none none none none none none pts) =
      if ¬ isNodeInFrustum
          (.mk mn mx d none none none none none none none none pts) fr then []
      else if vlength (vsub mx mn) /
          vlength (vsub viewPos
            ((ONode.mk mn mx d none none none none none none none none pts).center))
          < DETAIL_CUTOFF ∨ d ≥ LOD_DEPTH_CUTOFF then
        if pts.isEmpty then []
        else stridedSample pts
          (lodStride (vlength (vsub viewPos
            ((ONode.mk mn mx d none none none none none none none none pts).center)))
            baseDist)
      else pts := rfl

theorem queryLODRec_internal_mk (cloud : List Point) (viewPos : Vec3)
    (fr : List Vec4) (baseDist : ℚ) (mn mx : Vec3) (d : Nat)
    (k0 k1 k2 k3 k4 k5 k6 k7 : ONode) (pts : List Nat) :
    queryLODRec cloud viewPos fr baseDist
        (.mk mn mx d (some k0) (some k1) (some k2) (some k3) (some k4) (some k5)
          (some k6) (some k7) pts) =
      if ¬ isNodeInFrustum
          (.mk mn mx d (some k0) (some k1) (some k2) (some k3) (some k4) (some k5)
            (some k6) (some k7) pts) fr then []
      else if vlength (vsub mx mn) /
          vlength (vsub viewPos
            ((ONode.mk mn mx d (some k0) (some k1) (some k2) (some k3) (some k4)
              (some k5) (some k6) (some k7) pts).center))
          < DETAIL_CUTOFF ∨ d ≥ LOD_DEPTH_CUTOFF then
        if pts.isEmpty then []
        else stridedSample pts
          (lodStride (vlength (vsub viewPos
            ((ONode.mk mn mx d (some k0) (some k1) (some k2) (some k3) (some k4)
              (some k5) (some k6) (some k7) pts).center))) baseDist)
      else
        queryLODRec cloud viewPos fr baseDist k0 ++
        queryLODRec cloud viewPos fr baseDist k1 ++
        queryLODRec cloud viewPos fr baseDist k2 ++
        queryLODRec cloud viewPos fr baseDist k3 ++
        queryLODRec cloud viewPos fr baseDist k4 ++
        queryLODRec cloud viewPos fr baseDist k5 ++
        queryLODRec cloud viewPos fr baseDist k6 ++
        queryLODRec cloud viewPos fr baseDist k7 := rfl

/-- One step of `queryLODRecursive` in the far/deep branch on an internal
node: a node that passes the frustum test and satisfies
`detail_ratio < 0.01 ∨ depth ≥ 5` contributes a strided subsample of its
OWN index list only — it never descends to its children. -/
theorem queryLODRec_far_internal (cloud : List Point) (viewPos : Vec3)
    (fr : List Vec4) (baseDist : ℚ) (mn mx : Vec3) (d : Nat)
    (k0 k1 k2 k3 k4 k5 k6 k7 : ONode) (pts : List Nat)
    (hin : isNodeInFrustum
      (.mk mn mx d (some k0) (some k1) (some k2) (some k3) (some k4) (some k5)
        (some k6) (some k7) pts) fr = true)
    (hfar : vlength (vsub mx mn) /
        vlength (vsub viewPos
          ((ONode.mk mn mx d (some k0) (some k1) (some k2) (some k3) (some k4)
            (some k5) (some k6) (some k7) pts).center))
        < DETAIL_CUTOFF ∨ d ≥ LOD_DEPTH_CUTOFF) :
    queryLODRec cloud viewPos fr baseDist
        (.mk mn mx d (some k0) (some k1) (some k2) (some k3) (some k4) (some k5)
          (some k6) (some k7) pts) =
      if pts.isEmpty then []
      else stridedSample pts
        (lodStride (vlength (vsub viewPos
          ((ONode.mk mn mx d (some k0) (some k1) (some k2) (some k3) (some k4)
            (some k5) (some k6) (some k7) pts).center))) baseDist) := by
  rw [queryLODRec_internal_mk]
  rw [if_neg (not_not_intro hin)]
  rw [if_pos hfar]

theorem foldl_chunk {α β : Type} (f : β → α → β) (b m r : β) (l l1 l2 : List α)
    (hl : l = l1 ++ l2) (h1 : l1.foldl f b = m) (h2 : l2.foldl f m = r) :
    l.foldl f b = r := by
  subst hl; rw [List.foldl_append, h1, h2]

set_option maxRecDepth 8000 in
theorem ins_chunk1 :
    (List.range' 0 50).foldl
      (fun r i => insertPoint lineCloud (MAX_DEPTH + 1) r i (cloudPos lineCloud i))
      (ONode.new (cloudMinBound lineCloud) (cloudMaxBound lineCloud) 0) =
    ONode.withIndices lineLeaf (List.range' 0 50) := by
  with_unfolding_all rfl

set_option maxRecDepth 8000 in
theorem ins_chunk2 :
    (List.range' 50 50).foldl
      (fun r i => insertPoint lineCloud (MAX_DEPTH + 1) r i (cloudPos lineCloud i))
      (ONode.withIndices lineLeaf (List.range' 0 50)) =
    ONode.withIndices lineLeaf (List.range' 0 100) := by
  with_unfolding_all rfl

set_option maxRecDepth 8000 in
theorem ins_last :
    insertPoint lineCloud (MAX_DEPTH + 1)
      (ONode.withIndices lineLeaf (List.range' 0 100)) 100
      (cloudPos lineCloud 100) = lineRoot := by
  rw [show cloudPos lineCloud 100 = ⟨100, 0, 0⟩ from by with_unfolding_all rfl]
  rw [insertPoint_subdivide_eq lineCloud MAX_DEPTH
    (ONode.withIndices lineLeaf (List.range' 0 100)) 100 ⟨100, 0, 0⟩
    (by with_unfolding_all rfl)
    (by constructor
        · with_unfolding_all decide
        · with_unfolding_all decide)]
  rw [subdivide]
  exact foldl_chunk _ _ (lineMid (List.range' 0 51) []) _ _
    (List.range' 0 51) (List.range' 51 50)
    (by with_unfolding_all rfl)
    (by with_unfolding_all rfl)
    (by with_unfolding_all rfl)

set_option maxRecDepth 8000 in
/-- The concrete shape of the tree `build()` produces over the 101-point
line cloud: one subdivision, all indices in the two x-side children. -/
theorem build_lineCloud_eq : build lineCloud = some lineRoot := by
  rw [build, buildWithFuel,
    if_neg (by with_unfolding_all decide : ¬ lineCloud.isEmpty = true)]
  refine congrArg some ?_
  refine foldl_chunk _ _ (ONode.withIndices lineLeaf (List.range' 0 100)) _ _
    (List.range' 0 50 ++ List.range' 50 50) (List.range' 100 1)
    (by with_unfolding_all rfl) ?_ ?_
  · rw [List.foldl_append, ins_chunk1]
    exact ins_chunk2
  · simp only [List.range', List.foldl]
    exact ins_last

theorem descendants_leaf (a b : Vec3) (d : Nat) (ps : List Nat) :
    (ONode.mk a b d none none none none none none none none ps).descendants =
      [ONode.mk a b d none none none none none none none none ps] := rfl

theorem descendants_internal (a b : Vec3) (d : Nat)
    (k0 k1 k2 k3 k4 k5 k6 k7 : ONode) (ps : List Nat) :
    (ONode.mk a b d (some k0) (some k1) (some k2) (some k3) (some k4) (some k5)
      (some k6) (some k7) ps).descendants =
    ONode.mk a b d (some k0) (some k1) (some k2) (some k3) (some k4) (some k5)
      (some k6) (some k7) ps ::
      (k0.descendants ++ k1.descendants ++ k2.descendants ++ k3.descendants ++
       k4.descendants ++ k5.descendants ++ k6.descendants ++ k7.descendants) := rfl

/-- Every node of a well-formed subtree is itself well-formed. -/
theorem descendants_wf {cloud : List Point} {n : ONode} (h : WF cloud n) :
    ∀ m ∈ n.descendants, WF cloud m := by
  induction h with
  | leaf mn mx d ps hb hd hpts =>
    intro m hm
    rw [descendants_leaf, List.mem_singleton] at hm
    subst hm
    exact WF.leaf mn mx d ps hb hd hpts
  | internal mn mx d k0 k1 k2 k3 k4 k5 k6 k7 hb hd hs0 hs1 hs2 hs3 hs4 hs5 hs6 hs7 hw0 hw1 hw2 hw3 hw4 hw5 hw6 hw7 ih0 ih1 ih2 ih3 ih4 ih5 ih6 ih7 =>
    intro m hm
    rw [descendants_internal, List.mem_cons] at hm
    rcases hm with hm | hm
    · subst hm
      exact WF.internal mn mx d k0 k1 k2 k3 k4 k5 k6 k7 hb hd hs0 hs1 hs2 hs3
        hs4 hs5 hs6 hs7 hw0 hw1 hw2 hw3 hw4 hw5 hw6 hw7
    · simp only [List.mem_append] at hm
      rcases hm with ((((((h0 | h1) | h2) | h3) | h4) | h5) | h6) | h7
      · exact ih0 m h0
      · exact ih1 m h1
      · exact ih2 m h2
      · exact ih3 m h3
      · exact ih4 m h4
      · exact ih5 m h5
      · exact ih6 m h6
      · exact ih7 m h7

/-- The indices of a built tree are a permutation of `0 .. n-1`. -/
theorem allIndices_perm_range (cloud : List Point) (r : ONode)
    (h : build cloud = some r) :
    r.allIndices.Perm (List.range cloud.length) :=
  Multiset.coe_eq_coe.mp (build_wf cloud r h).2.1

/-- Membership in a built tree's index list is exactly in-bounds-ness. -/
theorem mem_allIndices_build {cloud : List Point} {r : ONode}
    (h : build cloud = some r) (i : Nat) :
    i ∈ r.allIndices ↔ i < cloud.length := by
  rw [(allIndices_perm_range cloud r h).mem_iff, List.mem_range]

/-- A built tree holds no duplicate indices. -/
theorem allIndices_nodup {cloud : List Point} {r : ONode}
    (h : build cloud = some r) : r.allIndices.Nodup :=
  ((allIndices_perm_range cloud r h).nodup_iff).mpr (List.nodup_range _)

/-- A well-formed non-leaf holds no indices of its own. -/
theorem WF_internal_pointIndices {cloud : List Point} {m : ONode}
    (h : WF cloud m) (hleaf : m.isLeaf = false) : m.pointIndices = [] := by
  cases h with
  | leaf mn mx d ps hb hd hpts =>
    rw [isLeaf_mk_none] at hleaf
    exact absurd hleaf (by simp)
  | internal mn mx d k0 k1 k2 k3 k4 k5 k6 k7 hb hd =>
    rfl

/-- `build` on a non-empty cloud returns a root (the insertion fold). -/
theorem build_nonempty (cloud : List Point) (h : cloud.isEmpty = false) :
    build cloud = some ((List.range cloud.length).foldl
      (fun r i => insertPoint cloud (MAX_DEPTH + 1) r i (cloudPos cloud i))
      (ONode.new (cloudMinBound cloud) (cloudMaxBound cloud) 0)) := by
  rw [build, buildWithFuel, if_neg (by simp [h])]

/-- C1: REFUTED — when the free list is empty and the active block is
full, `allocate()` calls `allocateNewBlock()` but then falls through to
`free_list_.back()` / `pop_back()` on the still-empty free list
(undefined behavior, modelled as `none`): on a fresh pool with block
size 10 the first 10 calls succeed and the 11th dies, so the claimed
25-allocation run can never complete. -/
theorem C1_allocate_falls_through :
    (allocateSeq (mkPool 10) 10).isSome = true ∧
    allocateSeq (mkPool 10) 11 = none ∧
    allocateSeq (mkPool 10) 25 = none := by
  with_unfolding_all decide

/-- C8: `build()` on the empty cloud leaves the root absent, and each of
the four queries run against an absent root returns the empty list (the
queries are total — an empty result, never an error). -/
theorem C8_empty_build_and_queries :
    build [] = none ∧
    (∀ (cloud : List Point) (fr : List Vec4), queryFrustum cloud none fr = []) ∧
    (∀ (cloud : List Point) (qmn qmx : Vec3), queryBox cloud none qmn qmx = []) ∧
    (∀ (cloud : List Point) (c : Vec3) (rad : ℚ), queryRadius cloud none c rad = []) ∧
    (∀ (cloud : List Point) (v : Vec3) (fr : List Vec4) (b : ℚ),
      queryLOD cloud none v fr b = []) :=
  ⟨rfl, fun _ _ => rfl, fun _ _ _ => rfl, fun _ _ _ => rfl, fun _ _ _ _ => rfl⟩

/-- C10: free-list reuse is LIFO — on ANY pool state, `deallocate(p)`
pushes `p` onto the back of the free list and the immediately following
`allocate()` pops the back, returning the same address `p`; concretely,
`allocate(); deallocate(p); allocate()` on a fresh pool returns `p` and
restores the exact pool state. -/
theorem C10_lifo_reuse :
    (∀ (s : PoolState) (p : Slot),
      (allocate (deallocate s p)).map Prod.fst = some p) ∧
    allocate (mkPool 10) = some (⟨0, 0⟩, ⟨10, [1], [], 1⟩) ∧
    allocate (deallocate ⟨10, [1], [], 1⟩ ⟨0, 0⟩) =
      some (⟨0, 0⟩, ⟨10, [1], [], 1⟩) := by
  refine ⟨?_, by with_unfolding_all decide, by with_unfolding_all decide⟩
  intro s p
  unfold allocate deallocate popFreeList
  simp [List.getLast?_concat]

/-- C9: the maximum-depth rule terminates subdivision on degenerate
clouds: over `n + 1` identical points (a zero-extent bounding box) the
tree still builds, is well-formed, loses no index, and every node sits at
depth ≤ `MAX_DEPTH`; and a leaf at depth ≥ `MAX_DEPTH` never subdivides —
a further insertion just appends to its (unbounded) index list. -/
theorem C9_max_depth_terminates (n : Nat) (q : Vec3) :
    (∃ r, build (List.replicate (n + 1) (mkPoint q)) = some r ∧
      WF (List.replicate (n + 1) (mkPoint q)) r ∧
      (r.allIndices : Multiset Nat) = ↑(List.range (n + 1)) ∧
      ∀ m ∈ r.descendants, m.depth ≤ MAX_DEPTH) ∧
    (∀ (cloud : List Point) (f : Nat) (mn mx : Vec3) (d : Nat) (ps : List Nat)
       (idx : Nat), MAX_DEPTH ≤ d →
      insertPoint cloud (f + 1)
        (ONode.mk mn mx d none none none none none none none none ps) idx
        (cloudPos cloud idx) =
      ONode.mk mn mx d none none none none none none none none (ps ++ [idx])) := by
  constructor
  · have hb := build_nonempty (List.replicate (n + 1) (mkPoint q)) rfl
    refine ⟨_, hb, (build_wf _ _ hb).1, ?_, ?_⟩
    · have hM := (build_wf _ _ hb).2.1
      simpa [List.length_replicate] using hM
    · intro m hm
      exact WF_depth_le (descendants_wf (build_wf _ _ hb).1 m hm)
  · intro cloud f mn mx d ps idx hd
    exact insertPoint_leaf_plain cloud f mn mx d ps idx
      (fun hconj => absurd hconj.2 (by omega))

theorem cloudPos_zero (pt : Point) (rest : List Point) :
    cloudPos (pt :: rest) 0 = pt.position := rfl

theorem cloudPos_cons (pt : Point) (rest : List Point) (i : Nat) :
    cloudPos (pt :: rest) (i + 1) = cloudPos rest i := rfl

/-- Counting in-bounds indices whose stored position satisfies a predicate
is counting the cloud's points satisfying it on their position. -/
theorem countP_range_cloudPos (q : Vec3 → Bool) :
    ∀ l : List Point,
      (List.range l.length).countP (fun i => q (cloudPos l i)) =
        l.countP (fun pt => q pt.position) := by
  intro l
  induction l with
  | nil => rfl
  | cons pt rest ih =>
    rw [List.length_cons, List.range_succ_eq_map, List.countP_cons,
      List.countP_map]
    have hcomp : ((fun i => q (cloudPos (pt :: rest) i)) ∘ Nat.succ) =
        (fun i => q (cloudPos rest i)) := rfl
    rw [hcomp, ih, List.countP_cons]
    rfl

/-- Boxes of well-formed nodes are proper (`min ≤ max` componentwise). -/
theorem WF_vle {cloud : List Point} {m : ONode} (h : WF cloud m) :
    vle m.minBound m.maxBound := by
  cases h with
  | leaf mn mx d ps hb hd hpts => exact hb
  | internal mn mx d k0 k1 k2 k3 k4 k5 k6 k7 hb hd => exact hb

set_option maxRecDepth 4000 in
/-- C2: counterexample to the claim as stated — over the 101-point line
cloud the built root is internal, passes the all-zero frustum, and has
detail ratio `100/10001 < 0.01`, yet `queryLOD` returns `[]`: the far
branch subsamples the root's OWN (empty) index list, not the 101 leaf
indices under it, whose claimed strided subsample would be `[0]`. -/
theorem C2_counterexample :
    queryLOD lineCloud (build lineCloud) lineView frustum0 10 = [] ∧
    isNodeInFrustum lineRoot frustum0 = true ∧
    vlength (vsub lineRoot.maxBound lineRoot.minBound) /
      vlength (vsub lineView lineRoot.center) < DETAIL_CUTOFF ∧
    lineRoot.isLeaf = false ∧
    lineRoot.allIndices.length = 101 ∧
    stridedSample lineRoot.allIndices
      (lodStride (vlength (vsub lineView lineRoot.center)) 10) = [0] := by
  rw [build_lineCloud_eq]
  exact ⟨by with_unfolding_all rfl, by with_unfolding_all rfl,
    by with_unfolding_all decide, by with_unfolding_all rfl,
    by with_unfolding_all rfl, by with_unfolding_all rfl⟩

/-- C2 (amended): in the far/deep branch (`detail_ratio < 0.01` or depth
≥ 5) on an internal node, `queryLODRecursive` does not recurse and emits
a strided subsample of the node's OWN `point_indices_` list; in
particular when that list is empty — as on every internal node of a
built tree — it contributes nothing: the leaf indices under the node are
never consulted. -/
theorem C2_lod_far_own_list (cloud : List Point) (viewPos : Vec3)
    (fr : List Vec4) (baseDist : ℚ) (mn mx : Vec3) (d : Nat)
    (k0 k1 k2 k3 k4 k5 k6 k7 : ONode) (pts : List Nat)
    (hin : isNodeInFrustum
      (.mk mn mx d (some k0) (some k1) (some k2) (some k3) (some k4) (some k5)
        (some k6) (some k7) pts) fr = true)
    (hfar : vlength (vsub mx mn) /
        vlength (vsub viewPos
          ((ONode.mk mn mx d (some k0) (some k1) (some k2) (some k3) (some k4)
            (some k5) (some k6) (some k7) pts).center))
        < DETAIL_CUTOFF ∨ d ≥ LOD_DEPTH_CUTOFF) :
    queryLODRec cloud viewPos fr baseDist
        (.mk mn mx d (some k0) (some k1) (some k2) (some k3) (some k4) (some k5)
          (some k6) (some k7) pts) =
      (if pts.isEmpty then []
       else stridedSample pts
        (lodStride (vlength (vsub viewPos
          ((ONode.mk mn mx d (some k0) (some k1) (some k2) (some k3) (some k4)
            (some k5) (some k6) (some k7) pts).center))) baseDist)) ∧
    (pts = [] →
      queryLODRec cloud viewPos fr baseDist
        (.mk mn mx d (some k0) (some k1) (some k2) (some k3) (some k4) (some k5)
          (some k6) (some k7) pts) = []) := by
  have hq := queryLODRec_far_internal cloud viewPos fr baseDist mn mx d
    k0 k1 k2 k3 k4 k5 k6 k7 pts hin hfar
  refine ⟨hq, fun hpts => ?_⟩
  subst hpts
  rw [hq]
  rfl

set_option maxRecDepth 4000 in
/-- Witness: the amended far-branch law applied to the built line-cloud
root with its concrete children, the all-zero frustum and the distant
viewpoint. -/
theorem C2_lod_far_own_list_witness :
    queryLODRec lineCloud lineView frustum0 10
        (.mk ⟨0, 0, 0⟩ ⟨100, 0, 0⟩ 0 (some (lineLo (List.range 51)))
          (some (lineHi (List.range' 51 50))) (some (lineLo []))
          (some (lineHi [])) (some (lineLo [])) (some (lineHi []))
          (some (lineLo [])) (some (lineHi [])) []) = [] :=
  (C2_lod_far_own_list lineCloud lineView frustum0 10 ⟨0, 0, 0⟩ ⟨100, 0, 0⟩ 0
    (lineLo (List.range 51)) (lineHi (List.range' 51 50)) (lineLo []) (lineHi [])
    (lineLo []) (lineHi []) (lineLo []) (lineHi []) []
    (by with_unfolding_all rfl)
    (Or.inl (by with_unfolding_all decide))).2 rfl

set_option maxRecDepth 10000 in
set_option maxHeartbeats 1000000 in
/-- C3: on a built tree `queryBox` returns, without duplicates, exactly
the in-bounds indices whose positions lie componentwise inside the
inclusive query box; and on the 10×10×10 unit grid the box
`[3,3,3]..[7,7,7]` captures exactly 125 of the 1000 indices. -/
theorem C3_queryBox_exact (cloud : List Point) (r : ONode)
    (h : build cloud = some r) (qmn qmx : Vec3) :
    ((queryBox cloud (build cloud) qmn qmx).Nodup ∧
     ∀ i, i ∈ queryBox cloud (build cloud) qmn qmx ↔
       i < cloud.length ∧ inBox (cloudPos cloud i) qmn qmx) ∧
    (queryBox grid1000 (build grid1000) ⟨3, 3, 3⟩ ⟨7, 7, 7⟩).length = 125 := by
  constructor
  · have hq : queryBox cloud (build cloud) qmn qmx =
        r.allIndices.filter (fun i => inBox (cloudPos cloud i) qmn qmx) := by
      rw [h]
      exact queryBoxRec_eq_filter qmn qmx (build_wf cloud r h).1
    rw [hq]
    refine ⟨(allIndices_nodup h).filter _, ?_⟩
    intro i
    simp only [List.mem_filter, mem_allIndices_build h, decide_eq_true_eq]
  · have hg : grid1000.isEmpty = false := by with_unfolding_all rfl
    have hrg := build_nonempty grid1000 hg
    have hq : queryBox grid1000 (build grid1000) ⟨3, 3, 3⟩ ⟨7, 7, 7⟩ =
        (((List.range grid1000.length).foldl
          (fun r i => insertPoint grid1000 (MAX_DEPTH + 1) r i
            (cloudPos grid1000 i))
          (ONode.new (cloudMinBound grid1000) (cloudMaxBound grid1000)
            0)).allIndices).filter
          (fun i => inBox (cloudPos grid1000 i) ⟨3, 3, 3⟩ ⟨7, 7, 7⟩) := by
      rw [hrg]
      exact queryBoxRec_eq_filter _ _ (build_wf grid1000 _ hrg).1
    rw [hq]
    have hperm := (allIndices_perm_range grid1000 _ hrg).filter
      (fun i => decide (inBox (cloudPos grid1000 i) ⟨3, 3, 3⟩ ⟨7, 7, 7⟩))
    rw [hperm.length_eq, ← List.countP_eq_length_filter]
    exact (countP_range_cloudPos
      (fun v => decide (inBox v ⟨3, 3, 3⟩ ⟨7, 7, 7⟩)) grid1000).trans
      (by with_unfolding_all decide)

/-- Witness: the box-query law on the one-point cloud and the unit box. -/
theorem C3_queryBox_exact_witness :
    ((queryBox cloud1 (build cloud1) ⟨0, 0, 0⟩ ⟨1, 1, 1⟩).Nodup ∧
     ∀ i, i ∈ queryBox cloud1 (build cloud1) ⟨0, 0, 0⟩ ⟨1, 1, 1⟩ ↔
       i < cloud1.length ∧ inBox (cloudPos cloud1 i) ⟨0, 0, 0⟩ ⟨1, 1, 1⟩) ∧
    (queryBox grid1000 (build grid1000) ⟨3, 3, 3⟩ ⟨7, 7, 7⟩).length = 125 :=
  C3_queryBox_exact cloud1
    (.mk ⟨0, 0, 0⟩ ⟨0, 0, 0⟩ 0 none none none none none none none none [0])
    (by with_unfolding_all rfl) ⟨0, 0, 0⟩ ⟨1, 1, 1⟩

/-- C4: on a built tree `queryFrustum` returns exactly the in-bounds
indices whose positions pass all the half-space tests (none omitted,
none failing), and node-level most-positive-corner pruning is
conservative: every index stored under a pruned well-formed node fails
the exact per-point test. -/
theorem C4_queryFrustum_exact (cloud : List Point) (r : ONode)
    (h : build cloud = some r) (fr : List Vec4) :
    (∀ i, i ∈ queryFrustum cloud (build cloud) fr ↔
      i < cloud.length ∧ isPointInFrustum (cloudPos cloud i) fr = true) ∧
    (∀ n, WF cloud n → isNodeInFrustum n fr = false →
      ∀ i ∈ n.allIndices, isPointInFrustum (cloudPos cloud i) fr = false) := by
  constructor
  · intro i
    have hq : queryFrustum cloud (build cloud) fr =
        r.allIndices.filter (fun j => isPointInFrustum (cloudPos cloud j) fr) := by
      rw [h]
      exact queryFrustumRec_eq_filter fr (build_wf cloud r h).1
    simp only [hq, List.mem_filter, mem_allIndices_build h]
  · intro n hWF hno i hi
    have hbx := (allIndices_inBox hWF i hi).2
    unfold isNodeInFrustum at hno
    exact frustum_prune hno hbx

/-- Witness: the frustum-query law on the one-point cloud and the
all-zero frustum. -/
theorem C4_queryFrustum_exact_witness :
    (∀ i, i ∈ queryFrustum cloud1 (build cloud1) frustum0 ↔
      i < cloud1.length ∧ isPointInFrustum (cloudPos cloud1 i) frustum0 = true) ∧
    (∀ n, WF cloud1 n → isNodeInFrustum n frustum0 = false →
      ∀ i ∈ n.allIndices, isPointInFrustum (cloudPos cloud1 i) frustum0 = false) :=
  C4_queryFrustum_exact cloud1
    (.mk ⟨0, 0, 0⟩ ⟨0, 0, 0⟩ 0 none none none none none none none none [0])
    (by with_unfolding_all rfl) frustum0

/-- C5: on a built tree `queryRadius` returns exactly the in-bounds
indices within squared distance `radius²` of the center, and the
clamp-based node pruning never discards a node holding a qualifying
point: every index under a pruned well-formed node is strictly outside
the radius. -/
theorem C5_queryRadius_exact (cloud : List Point) (r : ONode)
    (h : build cloud = some r) (c : Vec3) (rad : ℚ) :
    (∀ i, i ∈ queryRadius cloud (build cloud) c rad ↔
      i < cloud.length ∧ distSq (cloudPos cloud i) c ≤ rad * rad) ∧
    (∀ n, WF cloud n →
      distSq c (vclamp c n.minBound n.maxBound) > rad * rad →
      ∀ i ∈ n.allIndices, distSq (cloudPos cloud i) c > rad * rad) := by
  constructor
  · intro i
    have hq : queryRadius cloud (build cloud) c rad =
        r.allIndices.filter
          (fun j => ¬ distSq (cloudPos cloud j) c > rad * rad) := by
      rw [h]
      exact queryRadiusRec_eq_filter c rad (build_wf cloud r h).1
    simp only [hq, List.mem_filter, mem_allIndices_build h, decide_eq_true_eq,
      not_lt]
  · intro n hWF hfar i hi
    have hbx := (allIndices_inBox hWF i hi).2
    rw [distSq_comm]
    exact lt_of_lt_of_le hfar (distSq_clamp_le (WF_vle hWF) hbx)

/-- Witness: the radius-query law on the one-point cloud, center the
origin, radius 5. -/
theorem C5_queryRadius_exact_witness :
    (∀ i, i ∈ queryRadius cloud1 (build cloud1) ⟨0, 0, 0⟩ 5 ↔
      i < cloud1.length ∧ distSq (cloudPos cloud1 i) ⟨0, 0, 0⟩ ≤ 5 * 5) ∧
    (∀ n, WF cloud1 n →
      distSq ⟨0, 0, 0⟩ (vclamp ⟨0, 0, 0⟩ n.minBound n.maxBound) > 5 * 5 →
      ∀ i ∈ n.allIndices, distSq (cloudPos cloud1 i) ⟨0, 0, 0⟩ > 5 * 5) :=
  C5_queryRadius_exact cloud1
    (.mk ⟨0, 0, 0⟩ ⟨0, 0, 0⟩ 0 none none none none none none none none [0])
    (by with_unfolding_all rfl) ⟨0, 0, 0⟩ 5

/-- C6: a built tree over `n` points holds the indices `0..n-1` exactly
once across all its index lists (multiset equality — nothing lost,
nothing duplicated), and non-leaf nodes hold no indices of their own. -/
theorem C6_no_loss_no_dup (cloud : List Point) (r : ONode)
    (h : build cloud = some r) :
    ((r.allIndices : Multiset Nat) = ↑(List.range cloud.length)) ∧
    r.allIndices.Nodup ∧
    (∀ m ∈ r.descendants, m.isLeaf = false → m.pointIndices = []) := by
  refine ⟨(build_wf cloud r h).2.1, allIndices_nodup h, ?_⟩
  intro m hm hleaf
  exact WF_internal_pointIndices (descendants_wf (build_wf cloud r h).1 m hm)
    hleaf

/-- Witness: the partition law on the one-point cloud. -/
theorem C6_no_loss_no_dup_witness :
    (((ONode.mk ⟨0, 0, 0⟩ ⟨0, 0, 0⟩ 0 none none none none none none none none
        [0]).allIndices : Multiset Nat) = ↑(List.range cloud1.length)) ∧
    (ONode.mk ⟨0, 0, 0⟩ ⟨0, 0, 0⟩ 0 none none none none none none none none
        [0]).allIndices.Nodup ∧
    (∀ m ∈ (ONode.mk ⟨0, 0, 0⟩ ⟨0, 0, 0⟩ 0 none none none none none none none
        none [0]).descendants, m.isLeaf = false → m.pointIndices = []) :=
  C6_no_loss_no_dup cloud1
    (.mk ⟨0, 0, 0⟩ ⟨0, 0, 0⟩ 0 none none none none none none none none [0])
    (by with_unfolding_all rfl)

/-- C7: in a built tree a node is a leaf exactly when all eight child
slots are null, and a non-leaf has all eight slots populated with the
octant children of its box split at its center, one level deeper — a
node is never partially subdivided. -/
theorem C7_leaf_iff_eight_children (cloud : List Point) (r : ONode)
    (h : build cloud = some r) :
    ∀ m ∈ r.descendants,
      (m.isLeaf = true ↔
        m.getChild 0 = none ∧ m.getChild 1 = none ∧ m.getChild 2 = none ∧
        m.getChild 3 = none ∧ m.getChild 4 = none ∧ m.getChild 5 = none ∧
        m.getChild 6 = none ∧ m.getChild 7 = none) ∧
      (m.isLeaf = false →
        ∃ k0 k1 k2 k3 k4 k5 k6 k7,
          m.getChild 0 = some k0 ∧ m.getChild 1 = some k1 ∧
          m.getChild 2 = some k2 ∧ m.getChild 3 = some k3 ∧
          m.getChild 4 = some k4 ∧ m.getChild 5 = some k5 ∧
          m.getChild 6 = some k6 ∧ m.getChild 7 = some k7 ∧
          ChildShape m.minBound m.maxBound m.depth 0 k0 ∧
          ChildShape m.minBound m.maxBound m.depth 1 k1 ∧
          ChildShape m.minBound m.maxBound m.depth 2 k2 ∧
          ChildShape m.minBound m.maxBound m.depth 3 k3 ∧
          ChildShape m.minBound m.maxBound m.depth 4 k4 ∧
          ChildShape m.minBound m.maxBound m.depth 5 k5 ∧
          ChildShape m.minBound m.maxBound m.depth 6 k6 ∧
          ChildShape m.minBound m.maxBound m.depth 7 k7) := by
  intro m hm
  have hWF := descendants_wf (build_wf cloud r h).1 m hm
  cases hWF with
  | leaf mn mx d ps hb hd hpts =>
    exact ⟨⟨fun _ => ⟨rfl, rfl, rfl, rfl, rfl, rfl, rfl, rfl⟩, fun _ => rfl⟩,
      fun hfalse => absurd hfalse (by rw [isLeaf_mk_none]; simp)⟩
  | internal mn mx d k0 k1 k2 k3 k4 k5 k6 k7 hb hd hs0 hs1 hs2 hs3 hs4 hs5 hs6 hs7 hw0 hw1 hw2 hw3 hw4 hw5 hw6 hw7 =>
    refine ⟨⟨fun hc => absurd hc (by rw [isLeaf_mk_some]; simp),
      fun hrhs => absurd hrhs.1 (fun hcontra => Option.noConfusion hcontra)⟩,
      fun _ => ⟨k0, k1, k2, k3, k4, k5, k6, k7, rfl, rfl, rfl, rfl, rfl, rfl,
        rfl, rfl, hs0, hs1, hs2, hs3, hs4, hs5, hs6, hs7⟩⟩

/-- Witness: the structural law at the single (leaf) node of the
one-point cloud's tree. -/
theorem C7_leaf_iff_eight_children_witness :
    ((ONode.mk ⟨0, 0, 0⟩ ⟨0, 0, 0⟩ 0 none none none none none none none none
        [0]).isLeaf = true ↔
      (ONode.mk ⟨0, 0, 0⟩ ⟨0, 0, 0⟩ 0 none none none none none none none none
        [0]).getChild 0 = none ∧
      (ONode.mk ⟨0, 0, 0⟩ ⟨0, 0, 0⟩ 0 none none none none none none none none
        [0]).getChild 1 = none ∧
      (ONode.mk ⟨0, 0, 0⟩ ⟨0, 0, 0⟩ 0 none none none none none none none none
        [0]).getChild 2 = none ∧
      (ONode.mk ⟨0, 0, 0⟩ ⟨0, 0, 0⟩ 0 none none none none none none none none
        [0]).getChild 3 = none ∧
      (ONode.mk ⟨0, 0, 0⟩ ⟨0, 0, 0⟩ 0 none none none none none none none none
        [0]).getChild 4 = none ∧
      (ONode.mk ⟨0, 0, 0⟩ ⟨0, 0, 0⟩ 0 none none none none none none none none
        [0]).getChild 5 = none ∧
      (ONode.mk ⟨0, 0, 0⟩ ⟨0, 0, 0⟩ 0 none none none none none none none none
        [0]).getChild 6 = none ∧
      (ONode.mk ⟨0, 0, 0⟩ ⟨0, 0, 0⟩ 0 none none none none none none none none
        [0]).getChild 7 = none) ∧
    ((ONode.mk ⟨0, 0, 0⟩ ⟨0, 0, 0⟩ 0 none none none none none none none none
        [0]).isLeaf = false →
      ∃ k0 k1 k2 k3 k4 k5 k6 k7,
        (ONode.mk ⟨0, 0, 0⟩ ⟨0, 0, 0⟩ 0 none none none none none none none none
          [0]).getChild 0 = some k0 ∧
        (ONode.mk ⟨0, 0, 0⟩ ⟨0, 0, 0⟩ 0 none none none none none none none none
          [0]).getChild 1 = some k1 ∧
        (ONode.mk ⟨0, 0, 0⟩ ⟨0, 0, 0⟩ 0 none none none none none none none none
          [0]).getChild 2 = some k2 ∧
        (ONode.mk ⟨0, 0, 0⟩ ⟨0, 0, 0⟩ 0 none none none none none none none none
          [0]).getChild 3 = some k3 ∧
        (ONode.mk ⟨0, 0, 0⟩ ⟨0, 0, 0⟩ 0 none none none none none none none none
          [0]).getChild 4 = some k4 ∧
        (ONode.mk ⟨0, 0, 0⟩ ⟨0, 0, 0⟩ 0 none none none none none none none none
          [0]).getChild 5 = some k5 ∧
        (ONode.mk ⟨0, 0, 0⟩ ⟨0, 0, 0⟩ 0 none none none none none none none none
          [0]).getChild 6 = some k6 ∧
        (ONode.mk ⟨0, 0, 0⟩ ⟨0, 0, 0⟩ 0 none none none none none none none none
          [0]).getChild 7 = some k7 ∧
        ChildShape ⟨0, 0, 0⟩ ⟨0, 0, 0⟩ 0 0 k0 ∧
        ChildShape ⟨0, 0, 0⟩ ⟨0, 0, 0⟩ 0 1 k1 ∧
        ChildShape ⟨0, 0, 0⟩ ⟨0, 0, 0⟩ 0 2 k2 ∧
        ChildShape ⟨0, 0, 0⟩ ⟨0, 0, 0⟩ 0 3 k3 ∧
        ChildShape ⟨0, 0, 0⟩ ⟨0, 0, 0⟩ 0 4 k4 ∧
        ChildShape ⟨0, 0, 0⟩ ⟨0, 0, 0⟩ 0 5 k5 ∧
        ChildShape ⟨0, 0, 0⟩ ⟨0, 0, 0⟩ 0 6 k6 ∧
        ChildShape ⟨0, 0, 0⟩ ⟨0, 0, 0⟩ 0 7 k7) :=
  C7_leaf_iff_eight_children cloud1
    (.mk ⟨0, 0, 0⟩ ⟨0, 0, 0⟩ 0 none none none none none none none none [0])
    (by with_unfolding_all rfl)
    (ONode.mk ⟨0, 0, 0⟩ ⟨0, 0, 0⟩ 0 none none none none none none none none [0])
    (by rw [descendants_leaf]; exact List.mem_singleton_self _)

end PCV
